import Mathlib

/-!
Shallow embedding of `dataset_generator.py`.

The program is a two-stage pipeline:
* `generate_enrollment_data_v4` draws random student IDs and course numbers,
  assigns courses to students, simulates withdrawals per course, and writes one
  file per course plus a summary file;
* `generate_student_course_matrix_v4` reads those files back and writes a 0/1
  student-course matrix.

Modelling choices:
* Python strings are `List Char` (`PyStr`); a text file is its list of lines,
  without the terminating newline that each `f.write(f"...\n")` appends.
  `line.strip()` in the source removes that newline, which the line-list
  representation already excludes; residual whitespace stripping is modelled
  explicitly by `pyStrip` inside the integer parser (Python's `int()` also
  strips whitespace itself).
* Randomness is an explicit `Oracle` of candidate draws.  Each call into
  `random` is embedded as a checker (`pyRandint`, `pyUniform`, `pyShuffle`,
  `pySampleRange`, `pySampleList`) that accepts exactly the values the
  corresponding library routine can return and yields `none` where the
  routine would raise `ValueError`.  The unbounded rejection-sampling loops
  are given explicit fuel; a "run" of the program is any oracle/fuel choice
  on which the embedding returns `some`.
* Python floats (the withdrawal rates) are idealised as exact rationals `ℚ`;
  `int(len * rate)` is truncation toward zero of the exact product, computed
  on numerator/denominator so that it evaluates by `decide`.
* The filesystem directory is an association list from file name to lines.
-/

abbrev PyStr := List Char

/-- ASCII whitespace recognised by Python's `str.strip` / `int()`. -/
def isPySpace (c : Char) : Bool :=
  c = ' ' || c = '\t' || c = '\n' || c = '\x0d' || c = '\x0b' || c = '\x0c'

/-- Decimal digit test. -/
def isPyDigit (c : Char) : Bool := '0' ≤ c && c ≤ '9'

/-- Python `str.strip()`: drop whitespace from both ends. -/
def pyStrip (s : PyStr) : PyStr :=
  ((s.dropWhile isPySpace).reverse.dropWhile isPySpace).reverse

/-- Numeric value of a digit character. -/
def digitVal (c : Char) : Nat := c.toNat - 48

/-- Parse a nonempty all-digit string as a natural number. -/
def parseDigits (s : PyStr) : Option Nat :=
  if s ≠ [] ∧ s.all isPyDigit then
    some (s.foldl (fun a c => 10 * a + digitVal c) 0)
  else none

/-- Python `int(s)`: strip whitespace, optional sign, decimal digits. -/
def pyParseInt (s : PyStr) : Option Int :=
  match pyStrip s with
  | '-' :: rest => (parseDigits rest).map (fun n => -(n : Int))
  | '+' :: rest => (parseDigits rest).map (fun n => Int.ofNat n)
  | t => (parseDigits t).map (fun n => Int.ofNat n)

/-- Big-endian decimal digits, structurally recursive on a fuel bound so the
kernel can evaluate it (`natDigitsF f n` is correct whenever `n / 10 ≤ f`). -/
def natDigitsF : Nat → Nat → List Nat
  | 0, n => [n % 10]
  | f + 1, n => if n < 10 then [n] else natDigitsF f (n / 10) ++ [n % 10]

/-- Big-endian decimal digits of a natural number. -/
def natDigits (n : Nat) : List Nat := natDigitsF n n

/-- The character for a decimal digit. -/
def digitChar (d : Nat) : Char := Char.ofNat (48 + d)

/-- Decimal representation of a natural number (Python `str`/f-string of an `int ≥ 0`). -/
def natToDec (n : Nat) : PyStr := (natDigits n).map digitChar

/-- Decimal representation of an integer (Python `str`/f-string of an `int`). -/
def intToDec (i : Int) : PyStr :=
  if i < 0 then '-' :: natToDec i.natAbs else natToDec i.toNat

theorem natDigitsF_lt_ten : ∀ f n, ∀ d ∈ natDigitsF f n, d < 10 := by
  intro f
  induction f with
  | zero => intro n d hd; rw [natDigitsF] at hd; simp at hd; omega
  | succ f ih =>
    intro n d hd
    rw [natDigitsF] at hd
    split at hd
    · simp at hd; omega
    · rw [List.mem_append] at hd
      rcases hd with hd | hd
      · exact ih _ _ hd
      · simp at hd; omega

theorem natDigits_lt_ten (n : Nat) : ∀ d ∈ natDigits n, d < 10 :=
  natDigitsF_lt_ten n n

theorem natDigitsF_ne_nil (f n : Nat) : natDigitsF f n ≠ [] := by
  cases f with
  | zero => simp [natDigitsF]
  | succ f => rw [natDigitsF]; split <;> simp

theorem natDigits_ne_nil (n : Nat) : natDigits n ≠ [] := natDigitsF_ne_nil n n

theorem foldl_natDigitsF :
    ∀ f n, n / 10 ≤ f → ∀ a : Nat,
      (natDigitsF f n).foldl (fun a d => 10 * a + d) a =
        a * 10 ^ (natDigitsF f n).length + n := by
  intro f
  induction f with
  | zero =>
    intro n hn a
    have : n < 10 := by omega
    rw [natDigitsF]
    simp [Nat.mod_eq_of_lt this, Nat.mul_comm]
  | succ f ih =>
    intro n hn a
    rw [natDigitsF]
    split
    · simp [Nat.mul_comm]
    · rw [List.foldl_append, List.length_append,
        ih (n / 10) (by omega)]
      simp [pow_succ]
      ring_nf
      omega

theorem val_natDigits (n : Nat) : (natDigits n).foldl (fun a d => 10 * a + d) 0 = n := by
  rw [natDigits, foldl_natDigitsF n n (Nat.div_le_self n 10)]; simp

theorem isPyDigit_digitChar {d : Nat} (hd : d < 10) : isPyDigit (digitChar d) = true := by
  interval_cases d <;> decide

theorem digitVal_digitChar {d : Nat} (hd : d < 10) : digitVal (digitChar d) = d := by
  interval_cases d <;> decide

theorem natToDec_all_digits (n : Nat) : (natToDec n).all isPyDigit = true := by
  rw [natToDec, List.all_eq_true]
  intro c hc
  rw [List.mem_map] at hc
  obtain ⟨d, hd, rfl⟩ := hc
  exact isPyDigit_digitChar (natDigits_lt_ten n d hd)

theorem digit_not_space {c : Char} (hc : isPyDigit c = true) : isPySpace c = false := by
  rw [isPyDigit, Bool.and_eq_true, decide_eq_true_eq, decide_eq_true_eq] at hc
  have h1 : 48 ≤ c.toNat := hc.1
  rw [isPySpace]
  simp only [Bool.or_eq_false_iff, decide_eq_false_iff_not]
  refine ⟨⟨⟨⟨⟨?_, ?_⟩, ?_⟩, ?_⟩, ?_⟩, ?_⟩ <;>
    (intro h; rw [h] at h1; revert h1; decide)

theorem dropWhile_eq_self_of_all {p : Char → Bool} {l : PyStr}
    (h : ∀ c ∈ l, p c = false) : l.dropWhile p = l := by
  cases l with
  | nil => rfl
  | cons c cs =>
    rw [List.dropWhile_cons, h c (by simp)]
    simp

theorem pyStrip_of_all_digits {l : PyStr} (h : l.all isPyDigit = true) : pyStrip l = l := by
  rw [List.all_eq_true] at h
  have hns : ∀ c ∈ l, isPySpace c = false := fun c hc => digit_not_space (h c hc)
  rw [pyStrip, dropWhile_eq_self_of_all hns,
    dropWhile_eq_self_of_all (fun c hc => hns c (by simpa using hc)), List.reverse_reverse]

theorem parseDigits_natToDec (n : Nat) : parseDigits (natToDec n) = some n := by
  rw [parseDigits, if_pos]
  · congr 1
    rw [natToDec, List.foldl_map]
    calc (natDigits n).foldl (fun a c => 10 * a + digitVal (digitChar c)) 0
        = (natDigits n).foldl (fun a d => 10 * a + d) 0 := by
          apply List.foldl_ext
          intro a d hd
          rw [digitVal_digitChar (natDigits_lt_ten n d hd)]
      _ = n := val_natDigits n
  · constructor
    · rw [natToDec]
      simp [natDigits_ne_nil n]
    · exact natToDec_all_digits n

theorem natToDec_head_digit (n : Nat) :
    ∃ c cs, natToDec n = c :: cs ∧ isPyDigit c = true := by
  have hall := natToDec_all_digits n
  rw [List.all_eq_true] at hall
  cases hd : natToDec n with
  | nil =>
    exfalso
    rw [natToDec] at hd
    exact natDigits_ne_nil n (List.map_eq_nil_iff.mp hd)
  | cons c cs => exact ⟨c, cs, rfl, hall c (by rw [hd]; simp)⟩

theorem pyParseInt_natToDec (n : Nat) : pyParseInt (natToDec n) = some (n : Int) := by
  rw [pyParseInt, pyStrip_of_all_digits (natToDec_all_digits n)]
  obtain ⟨c, cs, hd, hc⟩ := natToDec_head_digit n
  rw [hd]
  have hcm : c ≠ '-' := by rintro rfl; simp [isPyDigit] at hc
  have hcp : c ≠ '+' := by rintro rfl; simp [isPyDigit] at hc
  have : parseDigits (c :: cs) = some n := by rw [← hd, parseDigits_natToDec]
  split
  · rename_i heq; exact absurd (List.head_eq_of_cons_eq heq.symm).symm hcm
  · rename_i heq; exact absurd (List.head_eq_of_cons_eq heq.symm).symm hcp
  · rw [this]; rfl

theorem pyParseInt_intToDec_ofNat (n : Nat) : pyParseInt (intToDec (n : Int)) = some (n : Int) := by
  rw [intToDec, if_neg (by omega)]
  simpa using pyParseInt_natToDec n

theorem natToDec_injective : Function.Injective natToDec := by
  intro a b hab
  have ha := parseDigits_natToDec a
  rw [hab, parseDigits_natToDec b] at ha
  exact (Option.some_injective _ ha).symm

/-! ### Sorting

Python's `list.sort()` / `sorted()` are stable ascending sorts; a stable
ascending sort has a unique result, so insertion sort is extensionally the
same function.  String comparison in Python is lexicographic on code points,
which is the `LinearOrder` on `List Char`. -/

/-- Python `sorted` on integers (ascending). -/
def pySortNat (l : List Nat) : List Nat := List.insertionSort (· ≤ ·) l

/-- Python `sorted` on integers (ascending), `Int` version. -/
def pySortInt (l : List Int) : List Int := List.insertionSort (· ≤ ·) l

/-- Python `sorted` on strings (lexicographic by code point). -/
def pySortStr (l : List PyStr) : List PyStr := List.insertionSort (· ≤ ·) l

/-! ### Python slicing -/

/-- Python `l[:k]` for a possibly negative `k`. -/
def pySliceTo {α : Type} (l : List α) (k : Int) : List α :=
  if k < 0 then l.take ((l.length : Int) + k).toNat else l.take k.toNat

/-- Python `l[a:b]` for `a ≥ 0` and a possibly negative `b`. -/
def pySlice {α : Type} (l : List α) (a : Nat) (b : Int) : List α :=
  (pySliceTo l b).drop a

/-! ### Random-library primitives as candidate checkers -/

/-- `random.randint(a, b)`: any integer in `[a, b]`; raises if `b < a`. -/
def pyRandint (a b cand : Nat) : Option Nat :=
  if a ≤ b ∧ a ≤ cand ∧ cand ≤ b then some cand else none

/-- `random.uniform(a, b)`: any value between the endpoints (works for either
endpoint order); floats idealised as rationals. -/
def pyUniform (a b cand : ℚ) : Option ℚ :=
  if (a ≤ cand ∧ cand ≤ b) ∨ (b ≤ cand ∧ cand ≤ a) then some cand else none

/-- `random.shuffle(l)`: any permutation of `l`. -/
def pyShuffle (l cand : List Nat) : Option (List Nat) :=
  if l.isPerm cand then some cand else none

/-- `random.sample(range(n), k)`: any `k` distinct values below `n`;
raises `ValueError` unless `k ≤ n`. -/
def pySampleRange (n k : Nat) (cand : List Nat) : Option (List Nat) :=
  if k ≤ n ∧ cand.length = k ∧ cand.Nodup ∧ cand.all (· < n) then some cand else none

/-- `cand` drawn from `l` without replacement (multiset containment). -/
def isSubcount (cand l : List Nat) : Bool :=
  cand.all (fun x => cand.count x ≤ l.count x)

/-- `random.sample(l, k)` for an integer `k`: any `k` positions of `l` without
replacement; raises `ValueError` unless `0 ≤ k ≤ len(l)`. -/
def pySampleList (l : List Nat) (k : Int) (cand : List Nat) : Option (List Nat) :=
  if 0 ≤ k ∧ cand.length = k.toNat ∧ k.toNat ≤ l.length ∧ isSubcount cand l then
    some cand
  else none

/-! ### `int(len * rate)`: truncation toward zero of the exact product -/

/-- Truncation of a rational toward zero (Python `int(x)`). -/
def ratTrunc (q : ℚ) : Int := if q < 0 then -⌊-q⌋ else ⌊q⌋

/-- Executable form of `int(len * rate)`, computed on numerator/denominator. -/
def truncLenMulRate (len : Nat) (rate : ℚ) : Int :=
  Int.tdiv ((len : Int) * rate.num) (rate.den : Int)

/-! ### Rejection sampling (`while len(acc) < target: draw; append if new`) -/

/-- The unbounded uniqueness loop of steps 1 and 3 of the generator, with
explicit fuel; draws `draw i` on iteration `i` through `random.randint(lo, hi)`
and appends it if not already present. -/
def sampleDistinct (draw : Nat → Nat) (lo hi target : Nat) :
    Nat → Nat → List Nat → Option (List Nat)
  | 0, _, acc => if target ≤ acc.length then some acc else none
  | fuel + 1, i, acc =>
    if target ≤ acc.length then some acc
    else
      match pyRandint lo hi (draw i) with
      | none => none
      | some v =>
        if v ∈ acc then sampleDistinct draw lo hi target fuel (i + 1) acc
        else sampleDistinct draw lo hi target fuel (i + 1) (acc ++ [v])

/-! ### The randomness oracle -/

/-- One candidate value for every call the program makes into `random`:
`idDraw i` is the `i`-th candidate student ID, `shuffleCand` the shuffled
order, `kDraw i` the course count for student position `i`, `courseDraw i`
the `i`-th candidate course number, `courseSampleCand i` the course indices
for student position `i`, `rateCand j` the withdrawal rate for course
position `j`, and `withdrawCand j` the withdrawn students for course
position `j`. -/
structure Oracle where
  idDraw : Nat → Nat
  shuffleCand : List Nat → List Nat
  kDraw : Nat → Nat
  courseDraw : Nat → Nat
  courseSampleCand : Nat → List Nat
  rateCand : Nat → ℚ
  withdrawCand : Nat → List Nat

/-! ### The enrollment generator -/

/-- Step 5 of the generator: append `sid` to each selected course's list. -/
def assignStudent (enr : List (List Nat)) (sid : Nat) (idxs : List Nat) :
    List (List Nat) :=
  idxs.foldl (fun e j => e.set j (e.getD j [] ++ [sid])) enr

/-- Steps 4–5: start from empty enrollments and assign each student in order
(`pairs` is the shuffled student-ID list zipped with the sampled course
indices). -/
def buildEnrollments (numCourses : Nat) (pairs : List (Nat × List Nat)) :
    List (List Nat) :=
  pairs.foldl (fun e p => assignStudent e p.1 p.2) (List.replicate numCourses [])

/-- One line per `f.write(f"{student_id}\n")` in a loop. -/
def writeIdLines (init : List PyStr) (ids : List Nat) : List PyStr :=
  ids.foldl (fun acc sid => acc ++ [natToDec sid]) init

/-- The lines of one course file: the withdrawal count, then the remaining
(active) students ascending, then the withdrawn students ascending. -/
def courseFileLines (numW : Int) (remaining withdrawn : List Nat) : List PyStr :=
  writeIdLines (writeIdLines [intToDec numW] (pySortNat remaining)) (pySortNat withdrawn)

/-- Everything the generator computes for one course in step 6. -/
structure CourseOut where
  num : Nat
  enrolled : List Nat
  rate : ℚ
  numWithdrawals : Int
  withdrawn : List Nat
  remaining : List Nat
  fileLines : List PyStr
deriving DecidableEq

/-- Step 6 for the course at dict position `j` with number `num`. -/
def simulateCourse (o : Oracle) (rateLo rateHi : ℚ) (j num : Nat)
    (enrolled : List Nat) : Option CourseOut := do
  let rate ← pyUniform rateLo rateHi (o.rateCand j)
  let numW := truncLenMulRate enrolled.length rate
  let withdrawn ← pySampleList enrolled numW (o.withdrawCand j)
  let remaining := enrolled.filter (fun sid => !withdrawn.contains sid)
  pure ⟨num, enrolled, rate, numW, withdrawn, remaining,
    courseFileLines numW remaining withdrawn⟩

/-- Reading a course file back: first line is the withdrawal count, the rest
are student IDs; the active segment is everything but the last `numW` IDs
(`all_students_in_file[:len(all_students_in_file) - num_withdrawals]`).
Shared by step 7 of the generator and by the matrix builder. -/
def readActiveSegment (lines : List PyStr) : Option (List Int) :=
  match lines with
  | [] => none
  | countLine :: rest =>
    (pyParseInt countLine).bind (fun numW =>
      (rest.mapM pyParseInt).bind (fun vals =>
        some (pySliceTo vals ((vals.length : Int) - numW))))

/-- Step 7, inner loop: the sorted course codes whose file's active segment
contains `sid`. -/
def summaryCodesFor (prog : PyStr) (courses : List CourseOut) (sid : Nat) :
    Option (List PyStr) :=
  (courses.mapM (fun c =>
      (readActiveSegment c.fileLines).bind (fun act =>
        some (if (sid : Int) ∈ act then [prog ++ natToDec c.num] else [])))).bind
    (fun per => some (pySortStr per.flatten))

/-- Header line of `student_courses_summary.txt`. -/
def summaryHeader : PyStr := "StudentID,Courses".toList

/-- One summary data line: `f"{student_id},{','.join(sorted(courses_taken))}"`. -/
def summaryLineFor (sid : Nat) (codes : List PyStr) : PyStr :=
  natToDec sid ++ [','] ++ List.intercalate [','] codes

/-- The result of one run of the enrollment generator: all intermediate
values plus the files written. -/
structure GenOutput where
  studentIds : List Nat
  courseNumbers : List Nat
  courses : List CourseOut
  summaryCodes : List (List PyStr)
  summaryFile : List PyStr
deriving DecidableEq

/-- `generate_enrollment_data_v4`, shallowly embedded.  Returns `some` exactly
when the Python function returns normally with the oracle's draws (and the
rejection-sampling loops terminate within `fuel` iterations). -/
def generate_enrollment_data_v4 (program_name : PyStr)
    (num_courses num_students : Nat) (cpsLo cpsHi : Nat) (rateLo rateHi : ℚ)
    (o : Oracle) (fuel : Nat) : Option GenOutput :=
  (sampleDistinct o.idDraw 10000000 99999999 num_students fuel 0 []).bind (fun ids0 =>
  (pyShuffle ids0 (o.shuffleCand ids0)).bind (fun student_ids =>
  ((List.range num_students).mapM (fun i => pyRandint cpsLo cpsHi (o.kDraw i))).bind
    (fun num_courses_taken =>
  (sampleDistinct o.courseDraw 1000 9999 num_courses fuel 0 []).bind (fun nums0 =>
  (num_courses_taken.enum.mapM
      (fun p => pySampleRange num_courses p.2 (o.courseSampleCand p.1))).bind
    (fun samples =>
  ((pySortNat nums0).enum.mapM
      (fun p => simulateCourse o rateLo rateHi p.1 p.2
        ((buildEnrollments num_courses (student_ids.zip samples)).getD p.1 []))).bind
    (fun courses =>
  (student_ids.mapM (summaryCodesFor program_name courses)).bind (fun codesList =>
  some ⟨student_ids, pySortNat nums0, courses, codesList,
    summaryHeader ::
      (student_ids.zip codesList).map (fun p => summaryLineFor p.1 p.2)⟩)))))))

/-! ### The output directory -/

/-- File name of one course file: `f"{course_name}.txt"`. -/
def courseFileName (prog : PyStr) (num : Nat) : PyStr :=
  prog ++ natToDec num ++ ".txt".toList

/-- `student_courses_summary.txt`. -/
def summaryFileName : PyStr := "student_courses_summary.txt".toList

/-- `student_course_matrix.csv`. -/
def matrixFileName : PyStr := "student_course_matrix.csv".toList

/-- A directory: file names with their lines. -/
abbrev PyDir := List (PyStr × List PyStr)

/-- The directory as the generator leaves it. -/
def outputDir (prog : PyStr) (out : GenOutput) : PyDir :=
  out.courses.map (fun c => (courseFileName prog c.num, c.fileLines))
    ++ [(summaryFileName, out.summaryFile)]

/-! ### The matrix builder -/

/-- Look a file up by name (`open(path)`); `none` is `FileNotFoundError`. -/
def readDirFile (d : PyDir) (name : PyStr) : Option (List PyStr) :=
  (d.find? (fun e => e.1 == name)).map (·.2)

/-- Write (create or overwrite) a file. -/
def writeDirFile (d : PyDir) (name : PyStr) (lines : List PyStr) : PyDir :=
  if d.any (fun e => e.1 == name) then
    d.map (fun e => if e.1 == name then (name, lines) else e)
  else d ++ [(name, lines)]

/-- The filename filter of the matrix builder:
`filename.startswith(program_name) and filename.endswith(".txt")`. -/
def courseFileNameTest (prog name : PyStr) : Bool :=
  prog.isPrefixOf name && (".txt".toList).isSuffixOf name

/-- `filename[len(program_name):-4]`. -/
def fileMiddle (prog name : PyStr) : PyStr :=
  pySlice name prog.length (-4)

/-- Lines 95–99 of the source: collect matching file names, parse the middle
as an integer (`int(c)`), sort ascending.  `none` is a propagated
`ValueError`. -/
def discoverCourseNumbers (prog : PyStr) (names : List PyStr) : Option (List Int) :=
  ((names.filter (courseFileNameTest prog)).mapM
      (fun n => pyParseInt (fileMiddle prog n))).bind
    (fun nums => some (pySortInt nums))

/-- Python `line.strip().split(',', 1)` followed by two-name unpacking:
`none` when the line has no comma (unpacking raises `ValueError`). -/
def pySplitOnce (sep : Char) (s : PyStr) : Option (PyStr × PyStr) :=
  if s.contains sep then
    some (s.takeWhile (fun c => c != sep), (s.dropWhile (fun c => c != sep)).drop 1)
  else none

/-- Lines 102–109: read the summary file (skip the header), parse the leading
student ID of each line, sort ascending.  `none` propagates any failure
(empty file, missing comma, malformed integer). -/
def parseSummaryIds (lines : List PyStr) : Option (List Int) :=
  match lines with
  | [] => none
  | _header :: rest =>
    (rest.mapM (fun line =>
        (pySplitOnce ',' (pyStrip line)).bind (fun p => pyParseInt p.1))).bind
      (fun ids => some (pySortInt ids))

/-- Header of the matrix file:
`"StudentID," + ",".join([f"{program_name}{c}" for c in course_numbers])`. -/
def matrixHeader (prog : PyStr) (course_numbers : List Int) : PyStr :=
  "StudentID,".toList ++
    List.intercalate [','] (course_numbers.map (fun c => prog ++ intToDec c))

/-- One matrix row (lines 117–126): reopen each course file, read its active
segment, and emit `'1'` or `'0'`; the row is comma-joined. -/
def matrixRow (prog : PyStr) (d : PyDir) (course_numbers : List Int) (sid : Int) :
    Option PyStr :=
  (course_numbers.mapM (fun c =>
      (readDirFile d (prog ++ intToDec c ++ ".txt".toList)).bind (fun lines =>
        (readActiveSegment lines).bind (fun act =>
          some (if sid ∈ act then ['1'] else ['0']))))).bind
    (fun cells => some (List.intercalate [','] (intToDec sid :: cells)))

/-- The row-writing loop: rows are flushed one at a time, so a failure while
building a row leaves the previously written rows in the file.  Returns the
lines written and whether the loop completed. -/
def writeRowsLoop (prog : PyStr) (d : PyDir) (course_numbers : List Int) :
    List Int → List PyStr → List PyStr × Bool
  | [], acc => (acc, true)
  | sid :: rest, acc =>
    match matrixRow prog d course_numbers sid with
    | none => (acc, false)
    | some r => writeRowsLoop prog d course_numbers rest (acc ++ [r])

/-- Outcome of one invocation of the matrix builder. -/
inductive BuilderResult where
  | missingDir
  | crashed
  | success (matrixLines : List PyStr)
deriving DecidableEq

/-- The matrix-file content the builder writes for an existing directory:
course discovery, then the summary read and parse, then the header and one
row per student; `none` is any propagated exception along the way. -/
def buildMatrixLines (prog : PyStr) (d : PyDir) : Option (List PyStr) :=
  (discoverCourseNumbers prog (d.map (·.1))).bind (fun course_numbers =>
  (readDirFile d summaryFileName).bind (fun sumLines =>
  (parseSummaryIds sumLines).bind (fun student_ids =>
  match writeRowsLoop prog d course_numbers student_ids
      [matrixHeader prog course_numbers] with
  | (lines, true) => some lines
  | (_, false) => none)))

/-- `generate_student_course_matrix_v4`, shallowly embedded over the directory
state (`none` = the output directory does not exist).  `missingDir` is the
reported-and-return branch of lines 91–93; `crashed` is any propagated
exception. -/
def generate_student_course_matrix_v4 (prog : PyStr) (fs : Option PyDir) :
    BuilderResult :=
  match fs with
  | none => BuilderResult.missingDir
  | some d =>
    match buildMatrixLines prog d with
    | some lines => BuilderResult.success lines
    | none => BuilderResult.crashed

/-- The directory after an invocation of the matrix builder: nothing at all
happens when the directory is missing; any failure before the matrix file is
opened leaves the directory unchanged; once open, the header and all completed
rows are in the file even if a later row fails. -/
def matrixBuilderDirAfter (prog : PyStr) (fs : Option PyDir) : Option PyDir :=
  match fs with
  | none => none
  | some d =>
    match discoverCourseNumbers prog (d.map (·.1)) with
    | none => some d
    | some course_numbers =>
      match readDirFile d summaryFileName with
      | none => some d
      | some sumLines =>
        match parseSummaryIds sumLines with
        | none => some d
        | some student_ids =>
          some (writeDirFile d matrixFileName
            (writeRowsLoop prog d course_numbers student_ids
              [matrixHeader prog course_numbers]).1)

/-! ### Inversion lemmas for the random primitives -/

theorem pyRandint_eq_some {a b cand v : Nat} (h : pyRandint a b cand = some v) :
    v = cand ∧ a ≤ v ∧ v ≤ b := by
  rw [pyRandint] at h
  split at h
  · cases h; rename_i hc; exact ⟨rfl, hc.2.1, hc.2.2⟩
  · cases h

theorem pyUniform_eq_some {a b cand v : ℚ} (h : pyUniform a b cand = some v) :
    v = cand ∧ ((a ≤ v ∧ v ≤ b) ∨ (b ≤ v ∧ v ≤ a)) := by
  rw [pyUniform] at h
  split at h
  · cases h; rename_i hc; exact ⟨rfl, hc⟩
  · cases h

theorem pyShuffle_eq_some {l cand v : List Nat} (h : pyShuffle l cand = some v) :
    v = cand ∧ l.Perm v := by
  rw [pyShuffle] at h
  split at h
  · cases h; rename_i hc; exact ⟨rfl, List.isPerm_iff.mp hc⟩
  · cases h

theorem pySampleRange_eq_some {n k : Nat} {cand v : List Nat}
    (h : pySampleRange n k cand = some v) :
    v = cand ∧ k ≤ n ∧ v.length = k ∧ v.Nodup ∧ ∀ x ∈ v, x < n := by
  rw [pySampleRange] at h
  split at h
  · cases h
    rename_i hc
    refine ⟨rfl, hc.1, hc.2.1, hc.2.2.1, ?_⟩
    have := hc.2.2.2
    rw [List.all_eq_true] at this
    intro x hx
    simpa using this x hx
  · cases h

theorem pySampleList_eq_some {l : List Nat} {k : Int} {cand v : List Nat}
    (h : pySampleList l k cand = some v) :
    v = cand ∧ 0 ≤ k ∧ v.length = k.toNat ∧ k.toNat ≤ l.length ∧ v.Subperm l := by
  rw [pySampleList] at h
  split at h
  · cases h
    rename_i hc
    refine ⟨rfl, hc.1, hc.2.1, hc.2.2.1, ?_⟩
    rw [List.subperm_ext_iff]
    intro x hx
    have := hc.2.2.2
    rw [isSubcount, List.all_eq_true] at this
    simpa using this x hx
  · cases h

/-! ### `mapM` over `Option` -/

/-- Direct recursion equivalent of `List.mapM` over `Option`. -/
def optMapM {α β : Type} (f : α → Option β) : List α → Option (List β)
  | [] => some []
  | a :: as => do
    let b ← f a
    let bs ← optMapM f as
    pure (b :: bs)

theorem mapM_loop_eq {α β : Type} (f : α → Option β) :
    ∀ (l : List α) (acc : List β),
      List.mapM.loop f l acc = (optMapM f l).map (fun bs => acc.reverse ++ bs) := by
  intro l
  induction l with
  | nil =>
    intro acc
    show some acc.reverse = some (acc.reverse ++ [])
    rw [List.append_nil]
  | cons a as ih =>
    intro acc
    show (f a).bind (fun b => List.mapM.loop f as (b :: acc)) =
      ((f a).bind (fun b => (optMapM f as).bind (fun bs => some (b :: bs)))).map
        (fun bs => acc.reverse ++ bs)
    cases f a with
    | none => rfl
    | some b =>
      show List.mapM.loop f as (b :: acc) =
        ((optMapM f as).bind (fun bs => some (b :: bs))).map (fun bs => acc.reverse ++ bs)
      rw [ih (b :: acc)]
      cases optMapM f as with
      | none => rfl
      | some bs =>
        show some ((b :: acc).reverse ++ bs) = some (acc.reverse ++ (b :: bs))
        rw [List.reverse_cons, List.append_assoc]
        rfl

theorem mapM_eq_optMapM {α β : Type} (f : α → Option β) (l : List α) :
    l.mapM f = optMapM f l := by
  rw [List.mapM, mapM_loop_eq]
  cases optMapM f l with
  | none => rfl
  | some bs => simp

theorem optMapM_some_forall₂ {α β : Type} (f : α → Option β) :
    ∀ (l : List α) (l' : List β), optMapM f l = some l' →
      List.Forall₂ (fun a b => f a = some b) l l' := by
  intro l
  induction l with
  | nil =>
    intro l' h
    cases h
    exact List.Forall₂.nil
  | cons a as ih =>
    intro l' h
    replace h : (f a).bind (fun b => (optMapM f as).bind (fun bs => some (b :: bs))) =
      some l' := h
    cases hfa : f a with
    | none => rw [hfa] at h; cases h
    | some b =>
      rw [hfa] at h
      replace h : (optMapM f as).bind (fun bs => some (b :: bs)) = some l' := h
      cases hbs : optMapM f as with
      | none => rw [hbs] at h; cases h
      | some bs =>
        rw [hbs] at h
        replace h : some (b :: bs) = some l' := h
        cases h
        exact List.Forall₂.cons hfa (ih bs hbs)

theorem mapM_some_forall₂ {α β : Type} (f : α → Option β) (l : List α) (l' : List β)
    (h : l.mapM f = some l') : List.Forall₂ (fun a b => f a = some b) l l' :=
  optMapM_some_forall₂ f l l' (by rw [← mapM_eq_optMapM]; exact h)

theorem mapM_some_length {α β : Type} {f : α → Option β} {l : List α} {l' : List β}
    (h : l.mapM f = some l') : l'.length = l.length :=
  (List.Forall₂.length_eq (mapM_some_forall₂ f l l' h)).symm

theorem mapM_map_eq_some {α β : Type} (f : α → Option β) (g : α → β) :
    ∀ (l : List α), (∀ a ∈ l, f a = some (g a)) → l.mapM f = some (l.map g) := by
  intro l
  induction l with
  | nil => intro _; rfl
  | cons a as ih =>
    intro h
    rw [mapM_eq_optMapM] at ih ⊢
    replace ih := ih (fun x hx => h x (by simp [hx]))
    show (f a).bind (fun b => (optMapM f as).bind (fun bs => some (b :: bs))) =
      some (List.map g (a :: as))
    rw [h a (by simp)]
    show (optMapM f as).bind (fun bs => some (g a :: bs)) = some (List.map g (a :: as))
    rw [ih]
    rfl

/-! ### The rejection-sampling loop -/

theorem sampleDistinct_spec (draw : Nat → Nat) (lo hi target : Nat) :
    ∀ (fuel i : Nat) (acc res : List Nat),
      acc.length ≤ target → acc.Nodup → (∀ x ∈ acc, lo ≤ x ∧ x ≤ hi) →
      sampleDistinct draw lo hi target fuel i acc = some res →
      res.length = target ∧ res.Nodup ∧ ∀ x ∈ res, lo ≤ x ∧ x ≤ hi := by
  intro fuel
  induction fuel with
  | zero =>
    intro i acc res hlen hnd hb h
    rw [sampleDistinct] at h
    split at h
    · cases h; exact ⟨by omega, hnd, hb⟩
    · cases h
  | succ fuel ih =>
    intro i acc res hlen hnd hb h
    rw [sampleDistinct] at h
    split at h
    · cases h; exact ⟨by omega, hnd, hb⟩
    · rename_i hnotfull
      match hr : pyRandint lo hi (draw i) with
      | none => rw [hr] at h; cases h
      | some v =>
        rw [hr] at h
        replace h :
            (if v ∈ acc then sampleDistinct draw lo hi target fuel (i + 1) acc
              else sampleDistinct draw lo hi target fuel (i + 1) (acc ++ [v])) =
            some res := h
        obtain ⟨rfl, hvl, hvu⟩ := pyRandint_eq_some hr
        split at h
        · exact ih _ _ _ hlen hnd hb h
        · rename_i hnotmem
          refine ih _ _ _ ?_ ?_ ?_ h
          · rw [List.length_append]; simp; omega
          · simpa [List.nodup_append] using ⟨hnd, hnotmem⟩
          · intro x hx
            rw [List.mem_append] at hx
            rcases hx with hx | hx
            · exact hb x hx
            · simp at hx; subst hx; exact ⟨hvl, hvu⟩

/-! ### Truncation toward zero versus floor -/

theorem ratTrunc_eq_floor {q : ℚ} (h : 0 ≤ q) : ratTrunc q = ⌊q⌋ := by
  rw [ratTrunc, if_neg (not_lt.mpr h)]

theorem truncLenMulRate_eq (len : Nat) (q : ℚ) :
    truncLenMulRate len q = ratTrunc ((len : ℚ) * q) := by
  have hden : (0 : Int) < (q.den : Int) := by exact_mod_cast q.den_pos
  have hx : (len : ℚ) * q = (((len : Int) * q.num : Int) : ℚ) / ((q.den : Nat) : ℚ) := by
    conv_lhs => rw [← Rat.num_div_den q]
    push_cast
    ring
  rcases le_or_lt 0 ((len : Int) * q.num) with ha | ha
  · have hx0 : 0 ≤ (len : ℚ) * q := by
      rw [hx]
      apply div_nonneg
      · exact_mod_cast ha
      · positivity
    rw [ratTrunc_eq_floor hx0, truncLenMulRate, Int.tdiv_eq_ediv ha (by omega), hx,
      Rat.floor_intCast_div_natCast]
  · have hx0 : (len : ℚ) * q < 0 := by
      rw [hx]
      apply div_neg_of_neg_of_pos
      · exact_mod_cast ha
      · positivity
    rw [ratTrunc, if_pos hx0, truncLenMulRate]
    have hneg : -((len : ℚ) * q) = ((-(((len : Int)) * q.num) : Int) : ℚ) / ((q.den : Nat) : ℚ) := by
      rw [hx]
      push_cast
      ring
    rw [hneg, Rat.floor_intCast_div_natCast,
      ← Int.tdiv_eq_ediv (show (0 : Int) ≤ -((len : Int) * q.num) by omega)
        (show (0 : Int) ≤ (q.den : Int) by omega),
      Int.neg_tdiv, neg_neg]

/-! ### Building the course enrollments (steps 4–5) -/

theorem getD_set (l : List (List Nat)) (i j : Nat) (v : List Nat) :
    (l.set i v).getD j [] = if i = j ∧ j < l.length then v else l.getD j [] := by
  rcases Nat.lt_or_ge j l.length with hj | hj
  · by_cases hij : i = j
    · subst hij
      rw [if_pos ⟨rfl, hj⟩]
      rw [List.getD_eq_getElem?_getD, List.getElem?_set_self (by omega)]
      rfl
    · rw [if_neg (by tauto)]
      rw [List.getD_eq_getElem?_getD, List.getElem?_set_ne hij, ← List.getD_eq_getElem?_getD]
  · rw [if_neg (by omega)]
    rw [List.getD_eq_getElem?_getD, List.getD_eq_getElem?_getD,
      List.getElem?_eq_none (by simpa using hj), List.getElem?_eq_none (by omega)]

theorem assignStudent_length (sid : Nat) :
    ∀ (idxs : List Nat) (enr : List (List Nat)),
      (assignStudent enr sid idxs).length = enr.length := by
  intro idxs
  induction idxs with
  | nil => intro enr; rfl
  | cons i rest ih =>
    intro enr
    show (assignStudent (enr.set i (enr.getD i [] ++ [sid])) sid rest).length = _
    rw [ih, List.length_set]

theorem assignStudent_getD (sid : Nat) :
    ∀ (idxs : List Nat), idxs.Nodup → ∀ (enr : List (List Nat)) (j : Nat),
      (assignStudent enr sid idxs).getD j [] =
        if j ∈ idxs ∧ j < enr.length then enr.getD j [] ++ [sid] else enr.getD j [] := by
  intro idxs
  induction idxs with
  | nil =>
    intro _ enr j
    rw [if_neg (by simp)]
    rfl
  | cons i rest ih =>
    intro hnd enr j
    rw [List.nodup_cons] at hnd
    show (assignStudent (enr.set i (enr.getD i [] ++ [sid])) sid rest).getD j [] = _
    rw [ih hnd.2, List.length_set, getD_set]
    by_cases hjr : j ∈ rest <;> by_cases hij : i = j <;>
      by_cases hjl : j < enr.length <;>
      simp_all [List.mem_cons] <;>
      rw [if_neg (by omega)]

theorem foldl_assign_length :
    ∀ (pairs : List (Nat × List Nat)) (init : List (List Nat)),
      (pairs.foldl (fun e p => assignStudent e p.1 p.2) init).length = init.length := by
  intro pairs
  induction pairs with
  | nil => intro init; rfl
  | cons p rest ih =>
    intro init
    rw [List.foldl_cons, ih, assignStudent_length]

theorem foldl_assign_getD :
    ∀ (pairs : List (Nat × List Nat)) (init : List (List Nat)),
      (∀ p ∈ pairs, p.2.Nodup ∧ ∀ x ∈ p.2, x < init.length) →
      ∀ j, (pairs.foldl (fun e p => assignStudent e p.1 p.2) init).getD j [] =
        init.getD j [] ++ (pairs.filter (fun p => decide (j ∈ p.2))).map (fun p => p.1) := by
  intro pairs
  induction pairs with
  | nil =>
    intro init _ j
    simp
  | cons p rest ih =>
    intro init hp j
    obtain ⟨hnd, hlt⟩ := hp p (by simp)
    rw [List.foldl_cons,
      ih (assignStudent init p.1 p.2)
        (fun q hq => by rw [assignStudent_length]; exact hp q (by simp [hq])) j,
      assignStudent_getD p.1 p.2 hnd init j, List.filter_cons]
    by_cases hjm : j ∈ p.2
    · rw [if_pos ⟨hjm, hlt j hjm⟩, if_pos (by simpa using hjm)]
      simp
    · rw [if_neg (by tauto), if_neg (by simpa using hjm)]

theorem buildEnrollments_getD (numCourses : Nat) (pairs : List (Nat × List Nat))
    (hp : ∀ p ∈ pairs, p.2.Nodup ∧ ∀ x ∈ p.2, x < numCourses) (j : Nat) :
    (buildEnrollments numCourses pairs).getD j [] =
      (pairs.filter (fun p => decide (j ∈ p.2))).map (fun p => p.1) := by
  rw [buildEnrollments, foldl_assign_getD pairs _ (by simpa using hp) j]
  rcases Nat.lt_or_ge j numCourses with hj | hj
  · rw [List.getD_eq_getElem?_getD, List.getElem?_replicate, if_pos hj]
    rfl
  · rw [List.getD_eq_getElem?_getD, List.getElem?_eq_none (by simpa using hj)]
    rfl

theorem buildEnrollments_length (numCourses : Nat) (pairs : List (Nat × List Nat)) :
    (buildEnrollments numCourses pairs).length = numCourses := by
  rw [buildEnrollments, foldl_assign_length, List.length_replicate]

theorem buildEnrollments_sublist (numCourses : Nat) (pairs : List (Nat × List Nat))
    (hp : ∀ p ∈ pairs, p.2.Nodup ∧ ∀ x ∈ p.2, x < numCourses) (j : Nat) :
    ((buildEnrollments numCourses pairs).getD j []).Sublist (pairs.map (fun p => p.1)) := by
  rw [buildEnrollments_getD numCourses pairs hp j]
  exact List.Sublist.map _ (List.filter_sublist _)

/-! ### Course files and reading them back -/

theorem writeIdLines_eq : ∀ (ids : List Nat) (init : List PyStr),
    writeIdLines init ids = init ++ ids.map natToDec := by
  intro ids
  induction ids with
  | nil => intro init; simp [writeIdLines]
  | cons sid rest ih =>
    intro init
    show writeIdLines (init ++ [natToDec sid]) rest = _
    rw [ih, List.append_assoc]
    rfl

theorem courseFileLines_eq (numW : Int) (remaining withdrawn : List Nat) :
    courseFileLines numW remaining withdrawn =
      intToDec numW ::
        ((pySortNat remaining).map natToDec ++ (pySortNat withdrawn).map natToDec) := by
  rw [courseFileLines, writeIdLines_eq, writeIdLines_eq]
  simp

theorem simulateCourse_eq_some {o : Oracle} {rateLo rateHi : ℚ} {j num : Nat}
    {enrolled : List Nat} {c : CourseOut}
    (h : simulateCourse o rateLo rateHi j num enrolled = some c) :
    c.num = num ∧ c.enrolled = enrolled ∧
    ((rateLo ≤ c.rate ∧ c.rate ≤ rateHi) ∨ (rateHi ≤ c.rate ∧ c.rate ≤ rateLo)) ∧
    c.numWithdrawals = truncLenMulRate enrolled.length c.rate ∧
    0 ≤ c.numWithdrawals ∧
    c.withdrawn.length = c.numWithdrawals.toNat ∧
    c.withdrawn.Subperm enrolled ∧
    c.remaining = enrolled.filter (fun sid => !c.withdrawn.contains sid) ∧
    c.fileLines = courseFileLines c.numWithdrawals c.remaining c.withdrawn := by
  replace h : (pyUniform rateLo rateHi (o.rateCand j)).bind (fun rate =>
      (pySampleList enrolled (truncLenMulRate enrolled.length rate)
          (o.withdrawCand j)).bind (fun withdrawn =>
        some ⟨num, enrolled, rate, truncLenMulRate enrolled.length rate, withdrawn,
          enrolled.filter (fun sid => !withdrawn.contains sid),
          courseFileLines (truncLenMulRate enrolled.length rate)
            (enrolled.filter (fun sid => !withdrawn.contains sid)) withdrawn⟩)) =
      some c := h
  cases hr : pyUniform rateLo rateHi (o.rateCand j) with
  | none => rw [hr] at h; cases h
  | some rate =>
    rw [hr] at h
    replace h : (pySampleList enrolled (truncLenMulRate enrolled.length rate)
        (o.withdrawCand j)).bind (fun withdrawn =>
          some ⟨num, enrolled, rate, truncLenMulRate enrolled.length rate, withdrawn,
            enrolled.filter (fun sid => !withdrawn.contains sid),
            courseFileLines (truncLenMulRate enrolled.length rate)
              (enrolled.filter (fun sid => !withdrawn.contains sid)) withdrawn⟩) =
        some c := h
    cases hw : pySampleList enrolled (truncLenMulRate enrolled.length rate)
        (o.withdrawCand j) with
    | none => rw [hw] at h; cases h
    | some withdrawn =>
      rw [hw] at h
      replace h : some (⟨num, enrolled, rate, truncLenMulRate enrolled.length rate,
          withdrawn, enrolled.filter (fun sid => !withdrawn.contains sid),
          courseFileLines (truncLenMulRate enrolled.length rate)
            (enrolled.filter (fun sid => !withdrawn.contains sid)) withdrawn⟩ :
          CourseOut) = some c := h
      cases h
      obtain ⟨rfl, hbounds⟩ := pyUniform_eq_some hr
      obtain ⟨rfl, hk0, hklen, hkle, hsub⟩ := pySampleList_eq_some hw
      refine ⟨rfl, rfl, hbounds, rfl, hk0, hklen, hsub, rfl, rfl⟩

theorem mapM_pyParseInt_natToDec (l : List Nat) :
    (l.map natToDec).mapM pyParseInt = some (l.map (fun n => Int.ofNat n)) := by
  rw [mapM_eq_optMapM]
  induction l with
  | nil => rfl
  | cons n rest ih =>
    show (pyParseInt (natToDec n)).bind
      (fun b => (optMapM pyParseInt (rest.map natToDec)).bind (fun bs => some (b :: bs))) = _
    rw [pyParseInt_natToDec, ih]
    rfl

theorem length_pySortNat (l : List Nat) : (pySortNat l).length = l.length :=
  (List.perm_insertionSort _ l).length_eq

theorem mem_pySortNat {x : Nat} {l : List Nat} : x ∈ pySortNat l ↔ x ∈ l :=
  (List.perm_insertionSort _ l).mem_iff

theorem sorted_pySortNat (l : List Nat) : List.Sorted (· ≤ ·) (pySortNat l) :=
  List.sorted_insertionSort _ l

theorem mem_cast_int {sid : Nat} {l : List Nat} :
    (sid : Int) ∈ l.map (fun n => Int.ofNat n) ↔ sid ∈ l := by
  constructor
  · intro h
    rw [List.mem_map] at h
    obtain ⟨a, ha, hc⟩ := h
    have : a = sid := Int.ofNat.inj hc
    exact this ▸ ha
  · intro h
    rw [List.mem_map]
    exact ⟨sid, h, rfl⟩

theorem readActiveSegment_courseFileLines {numW : Int} {remaining withdrawn : List Nat}
    (h0 : 0 ≤ numW) (hw : withdrawn.length = numW.toNat) :
    readActiveSegment (courseFileLines numW remaining withdrawn) =
      some ((pySortNat remaining).map (fun n => Int.ofNat n)) := by
  rw [courseFileLines_eq]
  have hparse : pyParseInt (intToDec numW) = some numW := by
    have h : numW = ((numW.toNat : Nat) : Int) := by omega
    rw [h, pyParseInt_intToDec_ofNat]
  show (pyParseInt (intToDec numW)).bind (fun numW' =>
      (((pySortNat remaining).map natToDec ++
          (pySortNat withdrawn).map natToDec).mapM pyParseInt).bind (fun vals =>
        some (pySliceTo vals ((vals.length : Int) - numW')))) = _
  rw [hparse, Option.some_bind, ← List.map_append, mapM_pyParseInt_natToDec,
    Option.some_bind]
  congr 1
  have hL : ((pySortNat remaining ++ pySortNat withdrawn).map
      (fun n => Int.ofNat n)).length = remaining.length + withdrawn.length := by
    rw [List.length_map, List.length_append, length_pySortNat, length_pySortNat]
  rw [pySliceTo, if_neg (by rw [hL]; omega), hL,
    show (((remaining.length + withdrawn.length : Nat) : Int) - numW).toNat
      = remaining.length by omega,
    List.map_append,
    List.take_left' (by rw [List.length_map, length_pySortNat])]

/-! ### `Forall₂` helpers -/

theorem forall₂_mem_right {α β : Type} {R : α → β → Prop} :
    ∀ {l : List α} {l' : List β}, List.Forall₂ R l l' → ∀ b ∈ l', ∃ a ∈ l, R a b := by
  intro l l' h
  induction h with
  | nil => intro b hb; cases hb
  | cons hr _ ih =>
    intro b hb
    rcases List.mem_cons.mp hb with rfl | hb
    · exact ⟨_, by simp, hr⟩
    · obtain ⟨a, ha, hab⟩ := ih b hb
      exact ⟨a, by simp [ha], hab⟩

theorem forall₂_map_of_forall₂ {α β γ : Type} {R : α → β → Prop} {S : β → γ → Prop}
    (f : α → γ) (hRS : ∀ a b, R a b → S b (f a)) :
    ∀ {l : List α} {l' : List β}, List.Forall₂ R l l' → List.Forall₂ S l' (l.map f) := by
  intro l l' h
  induction h with
  | nil => exact List.Forall₂.nil
  | cons hr _ ih => exact List.Forall₂.cons (hRS _ _ hr) ih

/-! ### Miscellaneous list facts -/

theorem subperm_nodup {l₁ l₂ : List Nat} (h : l₁.Subperm l₂) (h₂ : l₂.Nodup) :
    l₁.Nodup := by
  obtain ⟨l', hperm, hsub⟩ := h
  exact hperm.nodup (hsub.nodup h₂)

theorem nodup_pySortNat {l : List Nat} (h : l.Nodup) : (pySortNat l).Nodup :=
  ((List.perm_insertionSort _ l).symm).nodup h

theorem flatten_map_ite {α β : Type} (P : β → Prop) [DecidablePred P] (f : β → α) :
    ∀ l : List β,
      (l.map (fun b => if P b then [f b] else [])).flatten =
        (l.filter (fun b => decide (P b))).map f := by
  intro l
  induction l with
  | nil => rfl
  | cons b rest ih =>
    rw [List.map_cons, List.flatten_cons, ih, List.filter_cons]
    by_cases hp : P b
    · rw [if_pos hp, if_pos (by simpa using hp)]
      rfl
    · rw [if_neg hp, if_neg (by simpa using hp)]
      rfl

/-! ### The summary step -/

theorem summaryCodesFor_eq {prog : PyStr} {courses : List CourseOut} (sid : Nat)
    (hc : ∀ c ∈ courses, readActiveSegment c.fileLines =
      some ((pySortNat c.remaining).map (fun n => Int.ofNat n))) :
    summaryCodesFor prog courses sid =
      some (pySortStr
        ((courses.filter (fun c => decide (sid ∈ c.remaining))).map
          (fun c => prog ++ natToDec c.num))) := by
  rw [summaryCodesFor,
    mapM_map_eq_some _
      (fun c => if sid ∈ c.remaining then [prog ++ natToDec c.num] else []) courses
      (fun c hcc => by
        rw [hc c hcc, Option.some_bind]
        congr 1
        show _ = if sid ∈ c.remaining then [prog ++ natToDec c.num] else []
        by_cases hm : sid ∈ c.remaining
        · rw [if_pos (by rw [mem_cast_int, mem_pySortNat]; exact hm), if_pos hm]
        · rw [if_neg (by rw [mem_cast_int, mem_pySortNat]; exact hm), if_neg hm]),
    Option.some_bind, flatten_map_ite]

/-! ### Everything a successful generator run guarantees -/

/-- The facts provable about any successful run of
`generate_enrollment_data_v4`. -/
structure GenFacts (prog : PyStr) (num_courses num_students : Nat)
    (rateLo rateHi : ℚ) (out : GenOutput) : Prop where
  ids_len : out.studentIds.length = num_students
  ids_nodup : out.studentIds.Nodup
  ids_bounds : ∀ sid ∈ out.studentIds, 10000000 ≤ sid ∧ sid ≤ 99999999
  nums_sorted : List.Sorted (· ≤ ·) out.courseNumbers
  nums_nodup : out.courseNumbers.Nodup
  nums_len : out.courseNumbers.length = num_courses
  nums_bounds : ∀ n ∈ out.courseNumbers, 1000 ≤ n ∧ n ≤ 9999
  courses_num : List.Forall₂ (fun (c : CourseOut) (n : Nat) => c.num = n)
    out.courses out.courseNumbers
  enrolled_sublist : ∀ c ∈ out.courses, c.enrolled.Sublist out.studentIds
  rate_mem : ∀ c ∈ out.courses,
    (rateLo ≤ c.rate ∧ c.rate ≤ rateHi) ∨ (rateHi ≤ c.rate ∧ c.rate ≤ rateLo)
  numW_eq : ∀ c ∈ out.courses,
    c.numWithdrawals = truncLenMulRate c.enrolled.length c.rate ∧ 0 ≤ c.numWithdrawals
  withdrawn_spec : ∀ c ∈ out.courses,
    c.withdrawn.length = c.numWithdrawals.toNat ∧ c.withdrawn.Subperm c.enrolled
  remaining_eq : ∀ c ∈ out.courses,
    c.remaining = c.enrolled.filter (fun sid => !c.withdrawn.contains sid)
  fileLines_eq : ∀ c ∈ out.courses,
    c.fileLines = courseFileLines c.numWithdrawals c.remaining c.withdrawn
  codes_spec : List.Forall₂
    (fun sid codes => summaryCodesFor prog out.courses sid = some codes)
    out.studentIds out.summaryCodes
  summary_eq : out.summaryFile = summaryHeader ::
    (out.studentIds.zip out.summaryCodes).map (fun p => summaryLineFor p.1 p.2)

theorem genFacts_of_run {prog : PyStr} {nC nS cpsLo cpsHi : Nat} {rlo rhi : ℚ}
    {o : Oracle} {fuel : Nat} {out : GenOutput}
    (h : generate_enrollment_data_v4 prog nC nS cpsLo cpsHi rlo rhi o fuel = some out) :
    GenFacts prog nC nS rlo rhi out := by
  rw [generate_enrollment_data_v4] at h
  cases h1 : sampleDistinct o.idDraw 10000000 99999999 nS fuel 0 [] with
  | none => rw [h1] at h; cases h
  | some ids0 =>
  rw [h1, Option.some_bind] at h
  cases h2 : pyShuffle ids0 (o.shuffleCand ids0) with
  | none => rw [h2] at h; cases h
  | some student_ids =>
  rw [h2, Option.some_bind] at h
  cases h3 : (List.range nS).mapM (fun i => pyRandint cpsLo cpsHi (o.kDraw i)) with
  | none => rw [h3] at h; cases h
  | some num_courses_taken =>
  rw [h3, Option.some_bind] at h
  cases h4 : sampleDistinct o.courseDraw 1000 9999 nC fuel 0 [] with
  | none => rw [h4] at h; cases h
  | some nums0 =>
  rw [h4, Option.some_bind] at h
  cases h5 : num_courses_taken.enum.mapM
      (fun p => pySampleRange nC p.2 (o.courseSampleCand p.1)) with
  | none => rw [h5] at h; cases h
  | some samples =>
  rw [h5, Option.some_bind] at h
  cases h6 : (pySortNat nums0).enum.mapM
      (fun p => simulateCourse o rlo rhi p.1 p.2
        ((buildEnrollments nC (student_ids.zip samples)).getD p.1 [])) with
  | none => rw [h6] at h; cases h
  | some courses =>
  rw [h6, Option.some_bind] at h
  cases h7 : student_ids.mapM (summaryCodesFor prog courses) with
  | none => rw [h7] at h; cases h
  | some codesList =>
  rw [h7, Option.some_bind] at h
  cases h
  -- basic facts about the drawn pools
  obtain ⟨hi_len, hi_nodup, hi_bounds⟩ :=
    sampleDistinct_spec o.idDraw 10000000 99999999 nS fuel 0 [] ids0
      (by simp) (by simp) (by simp) h1
  obtain ⟨rfl, hperm⟩ := pyShuffle_eq_some h2
  obtain ⟨hn_len, hn_nodup, hn_bounds⟩ :=
    sampleDistinct_spec o.courseDraw 1000 9999 nC fuel 0 [] nums0
      (by simp) (by simp) (by simp) h4
  have hids_len : (o.shuffleCand ids0).length = nS := by
    rw [← hperm.length_eq, hi_len]
  have hids_nodup : (o.shuffleCand ids0).Nodup := hperm.nodup hi_nodup
  have hids_bounds : ∀ sid ∈ o.shuffleCand ids0, 10000000 ≤ sid ∧ sid ≤ 99999999 :=
    fun sid hs => hi_bounds sid (hperm.mem_iff.mpr hs)
  -- facts about the samples of course indices
  have hsam := mapM_some_forall₂ _ _ _ h5
  have hsam_mem : ∀ s ∈ samples, s.Nodup ∧ ∀ x ∈ s, x < nC := by
    intro s hs
    obtain ⟨p, _, hp⟩ := forall₂_mem_right hsam s hs
    obtain ⟨_, _, _, hnd, hlt⟩ := pySampleRange_eq_some hp
    exact ⟨hnd, hlt⟩
  have hpairs : ∀ p ∈ (o.shuffleCand ids0).zip samples,
      p.2.Nodup ∧ ∀ x ∈ p.2, x < nC := by
    intro p hp
    exact hsam_mem p.2 (List.of_mem_zip hp).2
  have hsam_len : samples.length = num_courses_taken.length := by
    rw [mapM_some_length h5, List.enum_length]
  have hkt_len : num_courses_taken.length = nS := by
    rw [mapM_some_length h3, List.length_range]
  -- facts about the per-course data
  have hcrs := mapM_some_forall₂ _ _ _ h6
  have hc_mem : ∀ c ∈ courses, ∃ p ∈ (pySortNat nums0).enum,
      simulateCourse o rlo rhi p.1 p.2
        ((buildEnrollments nC ((o.shuffleCand ids0).zip samples)).getD p.1 []) = some c :=
    fun c hc => forall₂_mem_right hcrs c hc
  refine ⟨hids_len, hids_nodup, hids_bounds, sorted_pySortNat nums0,
    nodup_pySortNat hn_nodup, by rw [length_pySortNat, hn_len],
    fun n hn => hn_bounds n (mem_pySortNat.mp hn), ?_, ?_, ?_, ?_, ?_, ?_, ?_,
    mapM_some_forall₂ _ _ _ h7, rfl⟩
  · -- courses_num
    have := forall₂_map_of_forall₂ (R := fun p c =>
        simulateCourse o rlo rhi p.1 p.2
          ((buildEnrollments nC ((o.shuffleCand ids0).zip samples)).getD p.1 []) = some c)
      (S := fun (c : CourseOut) (n : Nat) => c.num = n) Prod.snd
      (fun p c hpc => (simulateCourse_eq_some hpc).1) hcrs
    rwa [List.enum_map_snd] at this
  · -- enrolled_sublist
    intro c hc
    obtain ⟨p, _, hp⟩ := hc_mem c hc
    obtain ⟨_, henr, _⟩ := simulateCourse_eq_some hp
    rw [henr]
    have hsub := buildEnrollments_sublist nC ((o.shuffleCand ids0).zip samples) hpairs p.1
    rwa [List.map_fst_zip _ _ (by rw [hids_len, hsam_len, hkt_len])] at hsub
  · -- rate_mem
    intro c hc
    obtain ⟨p, _, hp⟩ := hc_mem c hc
    exact (simulateCourse_eq_some hp).2.2.1
  · -- numW_eq
    intro c hc
    obtain ⟨p, _, hp⟩ := hc_mem c hc
    obtain ⟨_, henr, _, hnw, hnw0, _⟩ := simulateCourse_eq_some hp
    exact ⟨by rw [hnw, henr], hnw0⟩
  · -- withdrawn_spec
    intro c hc
    obtain ⟨p, _, hp⟩ := hc_mem c hc
    obtain ⟨_, henr, _, _, _, hwl, hwsub, _⟩ := simulateCourse_eq_some hp
    exact ⟨hwl, by rw [henr]; exact hwsub⟩
  · -- remaining_eq
    intro c hc
    obtain ⟨p, _, hp⟩ := hc_mem c hc
    obtain ⟨_, henr, _, _, _, _, _, hrem, _⟩ := simulateCourse_eq_some hp
    rw [hrem, henr]
  · -- fileLines_eq
    intro c hc
    obtain ⟨p, _, hp⟩ := hc_mem c hc
    exact (simulateCourse_eq_some hp).2.2.2.2.2.2.2.2

/-! ### Helper facts used by several claim theorems -/

theorem contains_eq_false_iff {l : List Nat} {x : Nat} :
    (l.contains x = false) ↔ x ∉ l := by
  simp

theorem forall₂_num_map {courses : List CourseOut} {nums : List Nat}
    (h : List.Forall₂ (fun (c : CourseOut) (n : Nat) => c.num = n) courses nums) :
    courses.map (fun c => c.num) = nums := by
  induction h with
  | nil => rfl
  | cons hr _ ih => rw [List.map_cons, hr, ih]

theorem readActive_of_genFacts {prog : PyStr} {nC nS : Nat} {rlo rhi : ℚ}
    {out : GenOutput} (F : GenFacts prog nC nS rlo rhi out) :
    ∀ c ∈ out.courses, readActiveSegment c.fileLines =
      some ((pySortNat c.remaining).map (fun n => Int.ofNat n)) := by
  intro c hc
  rw [F.fileLines_eq c hc]
  exact readActiveSegment_courseFileLines (F.numW_eq c hc).2 (F.withdrawn_spec c hc).1

/-! ### Claim theorems for the enrollment generator -/

/-- C5: every successful run of `generate_enrollment_data_v4` produces exactly
`num_students` student IDs, all in `[10000000, 99999999]` and pairwise
distinct. -/
theorem studentIds_spec {prog : PyStr} {nC nS cpsLo cpsHi : Nat} {rlo rhi : ℚ}
    {o : Oracle} {fuel : Nat} {out : GenOutput}
    (h : generate_enrollment_data_v4 prog nC nS cpsLo cpsHi rlo rhi o fuel = some out) :
    out.studentIds.length = nS ∧ out.studentIds.Nodup ∧
      ∀ sid ∈ out.studentIds, 10000000 ≤ sid ∧ sid ≤ 99999999 :=
  ⟨(genFacts_of_run h).ids_len, (genFacts_of_run h).ids_nodup,
    (genFacts_of_run h).ids_bounds⟩

/-- C10: in every successful run, each course's enrollment list contains every
student ID at most once (the list is duplicate-free), because each student
samples distinct course indices and the student IDs are distinct. -/
theorem enrollment_nodup {prog : PyStr} {nC nS cpsLo cpsHi : Nat} {rlo rhi : ℚ}
    {o : Oracle} {fuel : Nat} {out : GenOutput}
    (h : generate_enrollment_data_v4 prog nC nS cpsLo cpsHi rlo rhi o fuel = some out) :
    ∀ c ∈ out.courses, c.enrolled.Nodup ∧ ∀ sid : Nat, c.enrolled.count sid ≤ 1 := by
  intro c hc
  have F := genFacts_of_run h
  have hnd := (F.enrolled_sublist c hc).nodup F.ids_nodup
  exact ⟨hnd, fun sid => List.nodup_iff_count_le_one.mp hnd sid⟩

/-- C3 (amended): in every successful run, for each course the remaining and
withdrawn lists are disjoint, together they cover exactly the original
enrollment, and the number withdrawn is `int(enrolled_count * rate)` — the
exact product truncated toward zero, which equals its floor whenever the
drawn rate is nonnegative. -/
theorem withdrawal_split_amended {prog : PyStr} {nC nS cpsLo cpsHi : Nat}
    {rlo rhi : ℚ} {o : Oracle} {fuel : Nat} {out : GenOutput}
    (h : generate_enrollment_data_v4 prog nC nS cpsLo cpsHi rlo rhi o fuel = some out) :
    ∀ c ∈ out.courses,
      (∀ x ∈ c.remaining, x ∉ c.withdrawn) ∧
      (∀ x, x ∈ c.enrolled ↔ x ∈ c.remaining ∨ x ∈ c.withdrawn) ∧
      ((rlo ≤ c.rate ∧ c.rate ≤ rhi) ∨ (rhi ≤ c.rate ∧ c.rate ≤ rlo)) ∧
      (c.withdrawn.length : Int) = ratTrunc ((c.enrolled.length : ℚ) * c.rate) ∧
      (0 ≤ c.rate →
        (c.withdrawn.length : Int) = ⌊(c.enrolled.length : ℚ) * c.rate⌋) := by
  intro c hc
  have F := genFacts_of_run h
  have hrem := F.remaining_eq c hc
  have hwsub := (F.withdrawn_spec c hc).2.subset
  have hlen : (c.withdrawn.length : Int) = ratTrunc ((c.enrolled.length : ℚ) * c.rate) := by
    rw [(F.withdrawn_spec c hc).1, ← truncLenMulRate_eq, ← (F.numW_eq c hc).1]
    have := (F.numW_eq c hc).2
    omega
  refine ⟨?_, ?_, F.rate_mem c hc, hlen, ?_⟩
  · intro x hx
    rw [hrem, List.mem_filter] at hx
    have := hx.2
    simp only [Bool.not_eq_eq_eq_not, Bool.not_true] at this
    exact contains_eq_false_iff.mp this
  · intro x
    constructor
    · intro hx
      by_cases hw : x ∈ c.withdrawn
      · exact Or.inr hw
      · refine Or.inl ?_
        rw [hrem, List.mem_filter]
        exact ⟨hx, by simp [hw]⟩
    · intro hx
      rcases hx with hx | hx
      · rw [hrem] at hx
        exact List.mem_of_mem_filter hx
      · exact hwsub hx
  · intro hr0
    rw [hlen, ratTrunc_eq_floor (mul_nonneg (by positivity) hr0)]

/-- C4: in every successful run, each course file is the withdrawal count in
decimal on the first line, then the active (remaining) student IDs in
ascending order one per line, then the withdrawn student IDs in ascending
order one per line; the count line parses back to the withdrawal count, which
equals the number of withdrawn IDs listed. -/
theorem courseFile_layout {prog : PyStr} {nC nS cpsLo cpsHi : Nat} {rlo rhi : ℚ}
    {o : Oracle} {fuel : Nat} {out : GenOutput}
    (h : generate_enrollment_data_v4 prog nC nS cpsLo cpsHi rlo rhi o fuel = some out) :
    ∀ c ∈ out.courses, ∃ act wd : List Nat,
      List.Sorted (· ≤ ·) act ∧ List.Sorted (· ≤ ·) wd ∧
      act.Perm c.remaining ∧ wd.Perm c.withdrawn ∧
      c.fileLines = intToDec c.numWithdrawals :: (act.map natToDec ++ wd.map natToDec) ∧
      pyParseInt (intToDec c.numWithdrawals) = some c.numWithdrawals ∧
      c.numWithdrawals.toNat = wd.length := by
  intro c hc
  have F := genFacts_of_run h
  refine ⟨pySortNat c.remaining, pySortNat c.withdrawn, sorted_pySortNat _,
    sorted_pySortNat _, List.perm_insertionSort _ _, List.perm_insertionSort _ _,
    ?_, ?_, ?_⟩
  · rw [F.fileLines_eq c hc, courseFileLines_eq]
  · have h0 := (F.numW_eq c hc).2
    have hcast : c.numWithdrawals = ((c.numWithdrawals.toNat : Nat) : Int) := by omega
    rw [hcast, pyParseInt_intToDec_ofNat]
  · rw [length_pySortNat, (F.withdrawn_spec c hc).1]

theorem sorted_pySortStr (l : List PyStr) : List.Sorted (· ≤ ·) (pySortStr l) :=
  List.sorted_insertionSort _ l

/-- C6 (amended): every data line of the summary file is the student's ID in
decimal, a comma, then the comma-joined lexicographically sorted course codes;
a student whose active course list is empty still gets the comma, so the line
is the ID followed by a single trailing comma (not the ID alone). -/
theorem summary_line_amended {prog : PyStr} {nC nS cpsLo cpsHi : Nat} {rlo rhi : ℚ}
    {o : Oracle} {fuel : Nat} {out : GenOutput}
    (h : generate_enrollment_data_v4 prog nC nS cpsLo cpsHi rlo rhi o fuel = some out) :
    out.summaryFile = summaryHeader ::
      (out.studentIds.zip out.summaryCodes).map
        (fun p => natToDec p.1 ++ [','] ++ List.intercalate [','] p.2) ∧
    out.summaryCodes.length = out.studentIds.length ∧
    (∀ cs ∈ out.summaryCodes, List.Sorted (· ≤ ·) cs) ∧
    ∀ p ∈ out.studentIds.zip out.summaryCodes, p.2 = ([] : List PyStr) →
      natToDec p.1 ++ [','] ++ List.intercalate [','] p.2 = natToDec p.1 ++ [','] := by
  have F := genFacts_of_run h
  refine ⟨?_, F.codes_spec.length_eq.symm, ?_, ?_⟩
  · rw [F.summary_eq]
    rfl
  · intro cs hcs
    obtain ⟨sid, _, hspec⟩ := forall₂_mem_right F.codes_spec cs hcs
    rw [summaryCodesFor_eq sid (readActive_of_genFacts F)] at hspec
    cases hspec
    exact sorted_pySortStr _
  · intro p _ hempty
    rw [hempty]
    simp [List.intercalate]

/-- C1: round trip between course files and the summary — for every course of
a successful run and every (student ID, summary course list) pair, the
student's ID appears in the course file's active segment (the IDs after the
count line minus the trailing withdrawn block) exactly when that course's
code appears in the student's summary course list. -/
theorem roundtrip_active_summary {prog : PyStr} {nC nS cpsLo cpsHi : Nat}
    {rlo rhi : ℚ} {o : Oracle} {fuel : Nat} {out : GenOutput}
    (h : generate_enrollment_data_v4 prog nC nS cpsLo cpsHi rlo rhi o fuel = some out) :
    ∀ c ∈ out.courses, ∀ p ∈ out.studentIds.zip out.summaryCodes,
      ∃ seg, readActiveSegment c.fileLines = some seg ∧
        (((p.1 : Int) ∈ seg) ↔ (prog ++ natToDec c.num) ∈ p.2) := by
  intro c hc p hp
  have F := genFacts_of_run h
  refine ⟨_, readActive_of_genFacts F c hc, ?_⟩
  have hcodes : summaryCodesFor prog out.courses p.1 = some p.2 := by
    have hz := F.codes_spec
    rw [List.forall₂_iff_zip] at hz
    exact hz.2 hp
  rw [summaryCodesFor_eq p.1 (readActive_of_genFacts F)] at hcodes
  replace hcodes := Option.some.inj hcodes
  have hmem : (prog ++ natToDec c.num) ∈ p.2 ↔
      ∃ c' ∈ out.courses, p.1 ∈ c'.remaining ∧
        prog ++ natToDec c'.num = prog ++ natToDec c.num := by
    rw [← hcodes, pySortStr, List.mem_insertionSort, List.mem_map]
    constructor
    · rintro ⟨c', hc', heq⟩
      rw [List.mem_filter] at hc'
      exact ⟨c', hc'.1, by simpa using hc'.2, heq⟩
    · rintro ⟨c', hc', hrem, heq⟩
      exact ⟨c', List.mem_filter.mpr ⟨hc', by simpa using hrem⟩, heq⟩
  rw [mem_cast_int, mem_pySortNat, hmem]
  constructor
  · intro hr
    exact ⟨c, hc, hr, rfl⟩
  · rintro ⟨c', hc', hrem, heq⟩
    have hnum : c'.num = c.num := natToDec_injective (List.append_cancel_left heq)
    have hmapnodup : (out.courses.map (fun x => x.num)).Nodup := by
      rw [forall₂_num_map F.courses_num]
      exact F.nums_nodup
    have hcc : c' = c := List.inj_on_of_nodup_map hmapnodup hc' hc hnum
    rw [← hcc]
    exact hrem

/-! ### Matrix-builder infrastructure -/

theorem mapM_map_comp_eq_some {α β γ : Type} (f : α → β) (g : β → Option γ)
    (gh : α → γ) :
    ∀ l : List α, (∀ a ∈ l, g (f a) = some (gh a)) →
      (l.map f).mapM g = some (l.map gh) := by
  intro l
  induction l with
  | nil => intro _; rfl
  | cons a as ih =>
    intro hl
    rw [mapM_eq_optMapM] at ih ⊢
    replace ih := ih (fun x hx => hl x (by simp [hx]))
    show (g (f a)).bind
      (fun b => (optMapM g (as.map f)).bind (fun bs => some (b :: bs))) = _
    rw [hl a (by simp), Option.some_bind, ih, Option.some_bind]
    rfl

theorem mapM_eq_some_filterMap {α β : Type} (f : α → Option β) :
    ∀ l : List α, (∀ a ∈ l, (f a).isSome) → l.mapM f = some (l.filterMap f) := by
  intro l
  induction l with
  | nil => intro _; rfl
  | cons a as ih =>
    intro hl
    rw [mapM_eq_optMapM] at ih ⊢
    replace ih := ih (fun x hx => hl x (by simp [hx]))
    obtain ⟨b, hb⟩ := Option.isSome_iff_exists.mp (hl a (by simp))
    show (f a).bind
      (fun b => (optMapM f as).bind (fun bs => some (b :: bs))) = _
    rw [hb, Option.some_bind, ih, Option.some_bind, List.filterMap_cons, hb]

theorem intToDec_ofNat (n : Nat) : intToDec (Int.ofNat n) = natToDec n := by
  rw [intToDec, if_neg (by simp)]
  rfl

theorem sorted_pySortInt (l : List Int) : List.Sorted (· ≤ ·) (pySortInt l) :=
  List.sorted_insertionSort _ l

theorem courseFileNameTest_true (prog : PyStr) (num : Nat) :
    courseFileNameTest prog (courseFileName prog num) = true := by
  rw [courseFileNameTest, courseFileName, Bool.and_eq_true]
  constructor
  · rw [List.isPrefixOf_iff_prefix]
    exact ⟨natToDec num ++ ".txt".toList, by rw [List.append_assoc]⟩
  · rw [List.isSuffixOf_iff_suffix]
    exact ⟨prog ++ natToDec num, by rw [List.append_assoc]⟩

theorem fileMiddle_courseFileName (prog : PyStr) (num : Nat) :
    fileMiddle prog (courseFileName prog num) = natToDec num := by
  rw [fileMiddle, pySlice, pySliceTo, if_pos (by decide), courseFileName]
  have hlen : (prog ++ natToDec num ++ ".txt".toList).length =
      prog.length + (natToDec num).length + 4 := by
    simp [List.length_append]
    omega
  rw [show ((((prog ++ natToDec num ++ ".txt".toList).length : Int) + (-4)).toNat)
      = prog.length + (natToDec num).length by rw [hlen]; omega]
  rw [List.take_left' (by rw [List.length_append]), List.drop_left]

theorem readDirFile_cons_ne {e : PyStr × List PyStr} {d : PyDir} {name : PyStr}
    (hne : e.1 ≠ name) :
    readDirFile (e :: d) name = readDirFile d name := by
  rw [readDirFile, readDirFile, List.find?_cons,
    show (e.1 == name) = false by simpa using hne]

theorem readDirFile_cons_eq {e : PyStr × List PyStr} {d : PyDir} :
    readDirFile (e :: d) e.1 = some e.2 := by
  rw [readDirFile, List.find?_cons, show (e.1 == e.1) = true by simp]
  rfl

theorem readDirFile_last {entries : PyDir} {name : PyStr} {lines : List PyStr}
    (hne : ∀ e ∈ entries, e.1 ≠ name) :
    readDirFile (entries ++ [(name, lines)]) name = some lines := by
  induction entries with
  | nil => exact readDirFile_cons_eq
  | cons e rest ih =>
    rw [List.cons_append, readDirFile_cons_ne (hne e (by simp))]
    exact ih (fun x hx => hne x (by simp [hx]))

theorem writeRowsLoop_all_some (prog : PyStr) (d : PyDir) (nums : List Int)
    (rowFn : Int → PyStr) :
    ∀ (sids : List Int), (∀ sid ∈ sids, matrixRow prog d nums sid = some (rowFn sid)) →
      ∀ acc, writeRowsLoop prog d nums sids acc = (acc ++ sids.map rowFn, true) := by
  intro sids
  induction sids with
  | nil => intro _ acc; simp [writeRowsLoop]
  | cons sid rest ih =>
    intro hall acc
    rw [writeRowsLoop, hall sid (by simp)]
    show writeRowsLoop prog d nums rest (acc ++ [rowFn sid]) = _
    rw [ih (fun x hx => hall x (by simp [hx]))]
    simp

theorem digit_ne_comma {c : Char} (hc : isPyDigit c = true) : (c != ',') = true := by
  rw [bne_iff_ne]
  rintro rfl
  simp [isPyDigit] at hc

theorem takeWhile_dropWhile_append {p : Char → Bool} :
    ∀ (l₁ l₂ : PyStr), (∀ c ∈ l₁, p c = true) →
      (∀ h : l₂ ≠ [], p (l₂.head h) = false) →
      (l₁ ++ l₂).takeWhile p = l₁ ∧ (l₁ ++ l₂).dropWhile p = l₂ := by
  intro l₁
  induction l₁ with
  | nil =>
    intro l₂ _ h2
    cases l₂ with
    | nil => exact ⟨rfl, rfl⟩
    | cons c t =>
      have h2' : p c = false := by simpa using h2 (by simp)
      rw [List.nil_append, List.takeWhile_cons, List.dropWhile_cons, h2']
      exact ⟨rfl, rfl⟩
  | cons a t ih =>
    intro l₂ h1 h2
    obtain ⟨iht, ihd⟩ := ih l₂ (fun c hc => h1 c (by simp [hc])) h2
    rw [List.cons_append, List.takeWhile_cons, List.dropWhile_cons, h1 a (by simp)]
    simp only [iht, ihd]
    exact ⟨rfl, rfl⟩

theorem pyStrip_comma_line {l₁ : PyStr} (hws : ∀ c ∈ l₁, isPySpace c = false)
    (rest : PyStr) :
    pyStrip (l₁ ++ ',' :: rest) =
      l₁ ++ ',' :: (rest.reverse.dropWhile isPySpace).reverse := by
  have hcomma : isPySpace ',' = false := by decide
  have hleft : (l₁ ++ ',' :: rest).dropWhile isPySpace = l₁ ++ ',' :: rest := by
    rw [List.dropWhile_append, dropWhile_eq_self_of_all hws]
    split
    · rename_i hemp
      have h0 : l₁ = [] := by simpa using hemp
      subst h0
      rw [List.dropWhile_cons, hcomma]
      simp
    · rfl
  rw [pyStrip, hleft, List.reverse_append, List.reverse_cons, List.append_assoc,
    List.dropWhile_append]
  have hmid : (([','] ++ l₁.reverse).dropWhile isPySpace) = [','] ++ l₁.reverse := by
    rw [show ([','] ++ l₁.reverse) = ',' :: l₁.reverse from rfl, List.dropWhile_cons,
      hcomma]
    simp
  split
  · rename_i hemp
    have h0 : rest.reverse.dropWhile isPySpace = [] := by simpa using hemp
    rw [hmid, h0, List.reverse_append]
    simp
  · rw [List.reverse_append, List.reverse_append]
    simp

theorem pySplitOnce_pyStrip_line {l₁ : PyStr} (h1 : ∀ c ∈ l₁, isPyDigit c = true)
    (rest : PyStr) :
    ∃ r, pySplitOnce ',' (pyStrip (l₁ ++ ',' :: rest)) = some (l₁, r) := by
  have hws : ∀ c ∈ l₁, isPySpace c = false := fun c hc => digit_not_space (h1 c hc)
  rw [pyStrip_comma_line hws rest, pySplitOnce, if_pos (by simp)]
  refine ⟨(rest.reverse.dropWhile isPySpace).reverse, ?_⟩
  obtain ⟨ht, hd⟩ := takeWhile_dropWhile_append l₁
    (',' :: (rest.reverse.dropWhile isPySpace).reverse)
    (fun c hc => digit_ne_comma (h1 c hc)) (fun _ => by simp)
  rw [ht, hd]
  rfl

theorem parseSummaryIds_of_gen {prog : PyStr} {nC nS : Nat} {rlo rhi : ℚ}
    {out : GenOutput} (F : GenFacts prog nC nS rlo rhi out) :
    parseSummaryIds out.summaryFile =
      some (pySortInt (out.studentIds.map (fun n => Int.ofNat n))) := by
  rw [F.summary_eq, parseSummaryIds,
    mapM_map_comp_eq_some (fun p : Nat × List PyStr => summaryLineFor p.1 p.2)
      (fun line => (pySplitOnce ',' (pyStrip line)).bind (fun p => pyParseInt p.1))
      (fun p => Int.ofNat p.1) _
      (fun p _ => by
        show (pySplitOnce ',' (pyStrip (summaryLineFor p.1 p.2))).bind
          (fun q => pyParseInt q.1) = some (Int.ofNat p.1)
        have hline : summaryLineFor p.1 p.2 =
            natToDec p.1 ++ ',' :: List.intercalate [','] p.2 := by
          rw [summaryLineFor, List.append_assoc]
          rfl
        obtain ⟨r, hr⟩ := pySplitOnce_pyStrip_line
          (fun c hc => by
            have hall := natToDec_all_digits p.1
            rw [List.all_eq_true] at hall
            exact hall c hc)
          (List.intercalate [','] p.2)
        rw [hline, hr, Option.some_bind, pyParseInt_natToDec]
        rfl),
    Option.some_bind]
  congr 2
  calc List.map (fun p : Nat × List PyStr => Int.ofNat p.1)
        (out.studentIds.zip out.summaryCodes)
      = List.map (fun n => Int.ofNat n)
          (List.map Prod.fst (out.studentIds.zip out.summaryCodes)) := by
        rw [List.map_map]
        rfl
    _ = List.map (fun n => Int.ofNat n) out.studentIds := by
        rw [List.map_fst_zip _ _ (le_of_eq F.codes_spec.length_eq)]

theorem courseFileName_inj {prog : PyStr} {a b : Nat}
    (h : courseFileName prog a = courseFileName prog b) : a = b := by
  rw [courseFileName, courseFileName, List.append_assoc, List.append_assoc] at h
  have h1 := List.append_cancel_left h
  have h2 := List.append_cancel_right h1
  exact natToDec_injective h2

theorem readDirFile_courses (prog : PyStr) :
    ∀ (courses : List CourseOut), (courses.map (fun c => c.num)).Nodup →
      ∀ c ∈ courses, ∀ (tail : PyDir),
        readDirFile
          (courses.map (fun c' => (courseFileName prog c'.num, c'.fileLines)) ++ tail)
          (courseFileName prog c.num) = some c.fileLines := by
  intro courses
  induction courses with
  | nil => intro _ c hc; cases hc
  | cons c₀ rest ih =>
    intro hnd c hc tail
    rw [List.map_cons] at hnd ⊢
    rw [List.nodup_cons] at hnd
    rcases List.mem_cons.mp hc with rfl | hc
    · rw [List.cons_append]
      exact readDirFile_cons_eq
    · have hne : c₀.num ≠ c.num := by
        intro he
        exact hnd.1 (he ▸ List.mem_map_of_mem (fun x => x.num) hc)
      rw [List.cons_append, readDirFile_cons_ne
        (fun he => hne (courseFileName_inj he))]
      exact ih hnd.2 c hc tail

theorem map_ofNat_courseNumbers {prog : PyStr} {nC nS : Nat} {rlo rhi : ℚ}
    {out : GenOutput} (F : GenFacts prog nC nS rlo rhi out) :
    out.courses.map (fun c => Int.ofNat c.num) =
      out.courseNumbers.map (fun n => Int.ofNat n) := by
  rw [← forall₂_num_map F.courses_num, List.map_map]
  rfl

theorem discover_of_gen {prog : PyStr} {nC nS : Nat} {rlo rhi : ℚ}
    {out : GenOutput} (F : GenFacts prog nC nS rlo rhi out)
    (hpre : courseFileNameTest prog summaryFileName = false) :
    discoverCourseNumbers prog ((outputDir prog out).map (fun e => e.1)) =
      some (out.courseNumbers.map (fun n => Int.ofNat n)) := by
  have hnames : (outputDir prog out).map (fun e => e.1) =
      out.courses.map (fun c => courseFileName prog c.num) ++ [summaryFileName] := by
    rw [outputDir, List.map_append, List.map_map]
    rfl
  rw [discoverCourseNumbers, hnames, List.filter_append,
    show List.filter (courseFileNameTest prog) [summaryFileName] = [] by
      rw [List.filter_cons, if_neg (by simp [hpre])]
      rfl,
    List.append_nil, List.filter_map,
    List.filter_eq_self.mpr (fun c _ => by
      show courseFileNameTest prog (courseFileName prog c.num) = true
      exact courseFileNameTest_true prog c.num)]
  have hmapM := mapM_map_comp_eq_some (fun c : CourseOut => courseFileName prog c.num)
    (fun n => pyParseInt (fileMiddle prog n)) (fun c : CourseOut => Int.ofNat c.num)
    out.courses
    (fun c _ => by
      show pyParseInt (fileMiddle prog (courseFileName prog c.num)) =
        some (Int.ofNat c.num)
      rw [fileMiddle_courseFileName, pyParseInt_natToDec]
      rfl)
  rw [hmapM, Option.some_bind]
  congr 1
  rw [map_ofNat_courseNumbers F, pySortInt, List.Sorted.insertionSort_eq]
  exact List.Pairwise.map _ (fun a b hab => Int.ofNat_le.mpr hab) F.nums_sorted

theorem matrixRow_of_gen {prog : PyStr} {nC nS : Nat} {rlo rhi : ℚ}
    {out : GenOutput} (F : GenFacts prog nC nS rlo rhi out) (sid : Int) :
    matrixRow prog (outputDir prog out)
        (out.courseNumbers.map (fun n => Int.ofNat n)) sid =
      some (List.intercalate [','] (intToDec sid ::
        out.courses.map (fun c =>
          if sid ∈ (pySortNat c.remaining).map (fun n => Int.ofNat n)
          then ['1'] else ['0']))) := by
  have hnodup : (out.courses.map (fun c => c.num)).Nodup := by
    rw [forall₂_num_map F.courses_num]
    exact F.nums_nodup
  rw [matrixRow, ← map_ofNat_courseNumbers F]
  have hmapM := mapM_map_comp_eq_some (fun c : CourseOut => Int.ofNat c.num)
    (fun n => (readDirFile (outputDir prog out)
        (prog ++ intToDec n ++ ".txt".toList)).bind (fun lines =>
      (readActiveSegment lines).bind (fun act =>
        some (if sid ∈ act then ['1'] else ['0']))))
    (fun c : CourseOut =>
      if sid ∈ (pySortNat c.remaining).map (fun n => Int.ofNat n)
      then ['1'] else ['0'])
    out.courses
    (fun c hc => by
      show (readDirFile (outputDir prog out)
          (prog ++ intToDec (Int.ofNat c.num) ++ ".txt".toList)).bind _ = _
      rw [intToDec_ofNat,
        show prog ++ natToDec c.num ++ ".txt".toList = courseFileName prog c.num
          from rfl,
        outputDir, readDirFile_courses prog out.courses hnodup c hc _,
        Option.some_bind, readActive_of_genFacts F c hc, Option.some_bind])
  rw [hmapM, Option.some_bind]

theorem builder_on_outputDir {prog : PyStr} {nC nS cpsLo cpsHi : Nat}
    {rlo rhi : ℚ} {o : Oracle} {fuel : Nat} {out : GenOutput}
    (h : generate_enrollment_data_v4 prog nC nS cpsLo cpsHi rlo rhi o fuel = some out)
    (hpre : courseFileNameTest prog summaryFileName = false) :
    generate_student_course_matrix_v4 prog (some (outputDir prog out)) =
      BuilderResult.success
        (matrixHeader prog (out.courseNumbers.map (fun n => Int.ofNat n)) ::
          (pySortInt (out.studentIds.map (fun n => Int.ofNat n))).map (fun sid =>
            List.intercalate [','] (intToDec sid ::
              out.courses.map (fun c =>
                if sid ∈ (pySortNat c.remaining).map (fun n => Int.ofNat n)
                then ['1'] else ['0'])))) := by
  have F := genFacts_of_run h
  have hsum : readDirFile (outputDir prog out) summaryFileName =
      some out.summaryFile := by
    rw [outputDir]
    apply readDirFile_last
    intro e he
    rw [List.mem_map] at he
    obtain ⟨c, _, rfl⟩ := he
    intro hname
    have := courseFileNameTest_true prog c.num
    rw [show courseFileName prog c.num = summaryFileName from hname, hpre] at this
    cases this
  have hbm : buildMatrixLines prog (outputDir prog out) =
      some (matrixHeader prog (out.courseNumbers.map (fun n => Int.ofNat n)) ::
        (pySortInt (out.studentIds.map (fun n => Int.ofNat n))).map (fun sid =>
          List.intercalate [','] (intToDec sid ::
            out.courses.map (fun c =>
              if sid ∈ (pySortNat c.remaining).map (fun n => Int.ofNat n)
              then ['1'] else ['0'])))) := by
    rw [buildMatrixLines, discover_of_gen F hpre, Option.some_bind, hsum,
      Option.some_bind, parseSummaryIds_of_gen F, Option.some_bind,
      writeRowsLoop_all_some prog (outputDir prog out)
        (out.courseNumbers.map (fun n => Int.ofNat n))
        (fun sid => List.intercalate [','] (intToDec sid ::
          out.courses.map (fun c =>
            if sid ∈ (pySortNat c.remaining).map (fun n => Int.ofNat n)
            then ['1'] else ['0'])))
        (pySortInt (out.studentIds.map (fun n => Int.ofNat n)))
        (fun sid _ => matrixRow_of_gen F sid)
        [matrixHeader prog (out.courseNumbers.map (fun n => Int.ofNat n))]]
    rfl
  show (match buildMatrixLines prog (outputDir prog out) with
    | some lines => BuilderResult.success lines
    | none => BuilderResult.crashed) = _
  rw [hbm]

/-! ### Claim theorems for the matrix builder -/

/-- C8: when the output directory does not exist the matrix builder reports
the condition and returns without doing anything: the outcome is
`missingDir`, so no matrix file is written, and the filesystem state is
untouched. -/
theorem missingDir_spec (prog : PyStr) :
    generate_student_course_matrix_v4 prog none = BuilderResult.missingDir ∧
    matrixBuilderDirAfter prog none = none :=
  ⟨rfl, rfl⟩

/-- C2 (amended): on the directory produced by a successful generator run,
provided the program name does not make `student_courses_summary.txt` pass
the course-file name filter, the matrix builder succeeds; rows are the
student IDs in ascending order, columns the course numbers in ascending
order, and the cell for (student, course) is `1` exactly when the student's
ID is in that course file's active segment (`readActiveSegment` of the
course's file, computed in the last conjunct). -/
theorem matrix_consistency_amended {prog : PyStr} {nC nS cpsLo cpsHi : Nat}
    {rlo rhi : ℚ} {o : Oracle} {fuel : Nat} {out : GenOutput}
    (h : generate_enrollment_data_v4 prog nC nS cpsLo cpsHi rlo rhi o fuel = some out)
    (hpre : courseFileNameTest prog summaryFileName = false) :
    List.Sorted (· ≤ ·) (pySortInt (out.studentIds.map (fun n => Int.ofNat n))) ∧
    List.Sorted (· ≤ ·) out.courseNumbers ∧
    (pySortInt (out.studentIds.map (fun n => Int.ofNat n))).Perm
      (out.studentIds.map (fun n => Int.ofNat n)) ∧
    (∀ c ∈ out.courses, readActiveSegment c.fileLines =
      some ((pySortNat c.remaining).map (fun n => Int.ofNat n))) ∧
    generate_student_course_matrix_v4 prog (some (outputDir prog out)) =
      BuilderResult.success
        (matrixHeader prog (out.courseNumbers.map (fun n => Int.ofNat n)) ::
          (pySortInt (out.studentIds.map (fun n => Int.ofNat n))).map (fun sid =>
            List.intercalate [','] (intToDec sid ::
              out.courses.map (fun c =>
                if sid ∈ (pySortNat c.remaining).map (fun n => Int.ofNat n)
                then ['1'] else ['0'])))) :=
  ⟨sorted_pySortInt _, (genFacts_of_run h).nums_sorted,
    List.perm_insertionSort _ _,
    readActive_of_genFacts (genFacts_of_run h),
    builder_on_outputDir h hpre⟩

/-- C7 (amended): course discovery keeps exactly the file names passing the
prefix/suffix test (files failing it cannot affect the result), and when
every kept name's middle parses as an integer, discovery returns those
integers sorted ascending.  A kept name whose middle does not parse makes
the whole discovery fail instead of being ignored. -/
theorem discovery_amended (prog : PyStr) (names : List PyStr)
    (H : ∀ n ∈ names, courseFileNameTest prog n = true →
      (pyParseInt (fileMiddle prog n)).isSome = true) :
    discoverCourseNumbers prog names =
      some (pySortInt ((names.filter (courseFileNameTest prog)).filterMap
        (fun n => pyParseInt (fileMiddle prog n)))) ∧
    List.Sorted (· ≤ ·) (pySortInt ((names.filter (courseFileNameTest prog)).filterMap
      (fun n => pyParseInt (fileMiddle prog n)))) ∧
    discoverCourseNumbers prog names =
      discoverCourseNumbers prog (names.filter (courseFileNameTest prog)) := by
  refine ⟨?_, sorted_pySortInt _, ?_⟩
  · rw [discoverCourseNumbers,
      mapM_eq_some_filterMap _ _ (fun n hn => by
        have hm := List.mem_filter.mp hn
        exact H n hm.1 (by simpa using hm.2)),
      Option.some_bind]
  · rw [discoverCourseNumbers, discoverCourseNumbers, List.filter_filter]
    simp

theorem length_pySortInt (l : List Int) : (pySortInt l).length = l.length :=
  (List.perm_insertionSort _ l).length_eq

/-- C9 (amended): in the scenario `num_courses = 5`, `num_students = 150`,
`courses_per_student_range = (1, 5)`, `withdrawal_rate_range = (0.05, 0.15)`,
every successful run yields 5 course files whose withdrawal count is the
floor of (enrollment × rate) for the rate drawn in `[0.05, 0.15]` — possibly
zero when the enrollment is small — a summary file of exactly 150 data lines
after the header, and a matrix file with 150 data rows and 5 data columns in
which every cell is `1` or `0`. -/
theorem scenario_amended {o : Oracle} {fuel : Nat} {out : GenOutput}
    (h : generate_enrollment_data_v4 "INFO".toList 5 150 1 5
      (mkRat 1 20) (mkRat 3 20) o fuel = some out) :
    out.courses.length = 5 ∧
    (∀ c ∈ out.courses,
      mkRat 1 20 ≤ c.rate ∧ c.rate ≤ mkRat 3 20 ∧
      (c.withdrawn.length : Int) = ⌊(c.enrolled.length : ℚ) * c.rate⌋) ∧
    out.summaryFile.length = 151 ∧
    out.summaryFile.head? = some summaryHeader ∧
    generate_student_course_matrix_v4 "INFO".toList
        (some (outputDir "INFO".toList out)) =
      BuilderResult.success
        (matrixHeader "INFO".toList (out.courseNumbers.map (fun n => Int.ofNat n)) ::
          (pySortInt (out.studentIds.map (fun n => Int.ofNat n))).map (fun sid =>
            List.intercalate [','] (intToDec sid ::
              out.courses.map (fun c =>
                if sid ∈ (pySortNat c.remaining).map (fun n => Int.ofNat n)
                then ['1'] else ['0'])))) ∧
    (pySortInt (out.studentIds.map (fun n => Int.ofNat n))).length = 150 ∧
    ∀ sid : Int,
      (out.courses.map (fun c =>
        if sid ∈ (pySortNat c.remaining).map (fun n => Int.ofNat n)
        then ['1'] else ['0'])).length = 5 ∧
      ∀ cell ∈ out.courses.map (fun c =>
          if sid ∈ (pySortNat c.remaining).map (fun n => Int.ofNat n)
          then ['1'] else ['0']),
        cell = ['1'] ∨ cell = ['0'] := by
  have F := genFacts_of_run h
  have h13 : (mkRat 1 20 : ℚ) ≤ mkRat 3 20 := by decide
  have h01 : (0 : ℚ) ≤ mkRat 1 20 := by decide
  have hlen5 : out.courses.length = 5 := by
    rw [F.courses_num.length_eq, F.nums_len]
  refine ⟨hlen5, ?_, ?_, ?_, builder_on_outputDir h (by decide), ?_, ?_⟩
  · intro c hc
    have hrate : mkRat 1 20 ≤ c.rate ∧ c.rate ≤ mkRat 3 20 := by
      rcases F.rate_mem c hc with ⟨h1, h2⟩ | ⟨h1, h2⟩
      · exact ⟨h1, h2⟩
      · exact ⟨le_trans h13 h1, le_trans h2 h13⟩
    refine ⟨hrate.1, hrate.2, ?_⟩
    have hnn : (0 : ℚ) ≤ c.rate := le_trans h01 hrate.1
    have hcast : ((c.numWithdrawals.toNat : Nat) : Int) = c.numWithdrawals := by
      have := (F.numW_eq c hc).2
      omega
    rw [(F.withdrawn_spec c hc).1, hcast, (F.numW_eq c hc).1, truncLenMulRate_eq,
      ratTrunc_eq_floor (mul_nonneg (by positivity) hnn)]
  · rw [F.summary_eq]
    simp [List.length_zip, F.ids_len, ← F.codes_spec.length_eq, F.ids_len]
  · rw [F.summary_eq]
    rfl
  · rw [length_pySortInt, List.length_map, F.ids_len]
  · intro sid
    constructor
    · rw [List.length_map, hlen5]
    · intro cell hcell
      rw [List.mem_map] at hcell
      obtain ⟨c, _, rfl⟩ := hcell
      split
      · exact Or.inl rfl
      · exact Or.inr rfl

/-! ### Concrete runs used by the counterexamples and witnesses -/

/-- A 1-student, 1-course run: ID 10000000, course INFO1000, rate 0. -/
def tinyOracle : Oracle where
  idDraw _ := 10000000
  shuffleCand l := l
  kDraw _ := 1
  courseDraw _ := 1000
  courseSampleCand _ := [0]
  rateCand _ := 0
  withdrawCand _ := []

/-- The output of the `tinyOracle` run. -/
def tinyOut : GenOutput :=
  ⟨[10000000], [1000],
    [⟨1000, [10000000], 0, 0, [], [10000000], [['0'], "10000000".toList]⟩],
    [["INFO1000".toList]],
    ["StudentID,Courses".toList, "10000000,INFO1000".toList]⟩

/-- Like `tinyOracle` but with a negative withdrawal rate `-1/2`. -/
def negOracle : Oracle where
  idDraw _ := 10000000
  shuffleCand l := l
  kDraw _ := 1
  courseDraw _ := 1000
  courseSampleCand _ := [0]
  rateCand _ := mkRat (-1) 2
  withdrawCand _ := []

/-- Like `tinyOracle` but with rate 1: the lone student withdraws. -/
def fullWithdrawOracle : Oracle where
  idDraw _ := 10000000
  shuffleCand l := l
  kDraw _ := 1
  courseDraw _ := 1000
  courseSampleCand _ := [0]
  rateCand _ := 1
  withdrawCand _ := [10000000]

/-- A deterministic oracle for the 150-student, 5-course scenario: every
student takes only the first course, so the other four courses are empty. -/
def scOracle : Oracle where
  idDraw i := 10000000 + i
  shuffleCand l := l
  kDraw _ := 1
  courseDraw i := 1000 + i
  courseSampleCand _ := [0]
  rateCand _ := mkRat 1 20
  withdrawCand j := if j = 0 then
    [10000000, 10000001, 10000002, 10000003, 10000004, 10000005, 10000006] else []

/-- The scenario run of C9 with `scOracle`. -/
def scRun : Option GenOutput :=
  generate_enrollment_data_v4 "INFO".toList 5 150 1 5
    (mkRat 1 20) (mkRat 3 20) scOracle 150

set_option maxRecDepth 100000 in
theorem scRun_isSome : scRun.isSome = true := by decide

/-- The scenario run's output. -/
def scOut : GenOutput := scRun.get scRun_isSome

theorem scRun_eq : scRun = some scOut :=
  (Option.some_get scRun_isSome).symm

/-! ### Counterexamples -/

/-- C2 counterexample: the generator run with program name "s" succeeds, but
the matrix builder then crashes on its own output directory (the summary
file passes the "s"-prefix/".txt"-suffix filter and its middle is not an
integer), so no matrix is written. -/
theorem matrix_consistency_counterexample :
    (generate_enrollment_data_v4 "s".toList 1 1 1 1 0 0 tinyOracle 1).map
        (fun out => generate_student_course_matrix_v4 "s".toList
          (some (outputDir "s".toList out))) =
      some BuilderResult.crashed := by decide

/-- C3 counterexample: with withdrawal-rate range `(-1/2, -1/2)` the run
succeeds, the lone course has 1 enrolled student and rate `-1/2`, and the
number withdrawn is 0 (Python's `int()` truncates toward zero), whereas
`floor(1 * (-1/2)) = -1 ≠ 0`. -/
theorem withdrawal_split_counterexample :
    (generate_enrollment_data_v4 "INFO".toList 1 1 1 1
        (mkRat (-1) 2) (mkRat (-1) 2) negOracle 1).map
        (fun out => out.courses.map (fun c => (c.enrolled.length, c.rate,
          c.withdrawn.length))) =
      some [(1, mkRat (-1) 2, 0)] ∧
    ⌊((1 : Nat) : ℚ) * mkRat (-1) 2⌋ = -1 ∧ ((0 : Nat) : Int) ≠ -1 := by
  refine ⟨by decide, ?_, by decide⟩
  rw [Nat.cast_one, one_mul, Rat.floor_def]
  decide

/-- C6 counterexample: a run in which the lone student withdraws from their
only course; the student's summary line is `10000000,` — the ID followed by
a trailing comma — not the ID alone. -/
theorem summary_line_counterexample :
    (generate_enrollment_data_v4 "INFO".toList 1 1 1 1 1 1
        fullWithdrawOracle 1).map (fun out => out.summaryFile) =
      some ["StudentID,Courses".toList, "10000000,".toList] ∧
    ("10000000,".toList : PyStr) ≠ "10000000".toList := ⟨by decide, by decide⟩

/-- C7 counterexample: a directory containing only `INFOA.txt` (which starts
with the program name and ends in `.txt` but has no numeric middle) makes
course discovery fail with a parse error instead of ignoring the file, which
would have produced the empty column list. -/
theorem discovery_counterexample :
    discoverCourseNumbers "INFO".toList ["INFOA.txt".toList] = none ∧
    (none : Option (List Int)) ≠ some ([] : List Int) := ⟨by decide, by decide⟩

set_option maxRecDepth 100000 in
/-- C9 counterexample: a successful scenario run (parameters of C9) in which
courses INFO1001 … INFO1004 have no students, so their withdrawal counts are
0 and their files' first line is `0` — the withdrawal counts are not all
nonzero. -/
theorem scenario_counterexample :
    scRun.map (fun out => out.courses.map
        (fun c => (c.fileLines.head?, c.numWithdrawals))) =
      some [(some ['7'], 7), (some ['0'], 0), (some ['0'], 0),
        (some ['0'], 0), (some ['0'], 0)] := by
  rw [scRun_eq]
  decide

/-! ### Witnesses -/

theorem studentIds_spec_witness :
    tinyOut.studentIds.length = 1 ∧ tinyOut.studentIds.Nodup ∧
      ∀ sid ∈ tinyOut.studentIds, 10000000 ≤ sid ∧ sid ≤ 99999999 :=
  @studentIds_spec "INFO".toList 1 1 1 1 0 0 tinyOracle 1 tinyOut (by decide)

theorem enrollment_nodup_witness :
    ([10000000] : List Nat).Nodup ∧
      ∀ sid : Nat, ([10000000] : List Nat).count sid ≤ 1 :=
  @enrollment_nodup "INFO".toList 1 1 1 1 0 0 tinyOracle 1 tinyOut (by decide)
    ⟨1000, [10000000], 0, 0, [], [10000000], [['0'], "10000000".toList]⟩ (by decide)

theorem withdrawal_split_amended_witness :
    (∀ x ∈ ([10000000] : List Nat), x ∉ ([] : List Nat)) ∧
    (∀ x, x ∈ ([10000000] : List Nat) ↔
      x ∈ ([10000000] : List Nat) ∨ x ∈ ([] : List Nat)) ∧
    (((0 : ℚ) ≤ (0 : ℚ) ∧ (0 : ℚ) ≤ 0) ∨ ((0 : ℚ) ≤ (0 : ℚ) ∧ (0 : ℚ) ≤ 0)) ∧
    ((([] : List Nat).length : Int) =
      ratTrunc ((([10000000] : List Nat).length : ℚ) * (0 : ℚ))) ∧
    (0 ≤ (0 : ℚ) →
      (([] : List Nat).length : Int) =
        ⌊(([10000000] : List Nat).length : ℚ) * (0 : ℚ)⌋) :=
  @withdrawal_split_amended "INFO".toList 1 1 1 1 0 0 tinyOracle 1 tinyOut (by decide)
    ⟨1000, [10000000], 0, 0, [], [10000000], [['0'], "10000000".toList]⟩ (by decide)

theorem courseFile_layout_witness :
    ∃ act wd : List Nat,
      List.Sorted (· ≤ ·) act ∧ List.Sorted (· ≤ ·) wd ∧
      act.Perm ([10000000] : List Nat) ∧ wd.Perm ([] : List Nat) ∧
      ([['0'], "10000000".toList] : List PyStr) = intToDec 0 ::
        (act.map natToDec ++ wd.map natToDec) ∧
      pyParseInt (intToDec 0) = some 0 ∧
      (0 : Int).toNat = wd.length :=
  @courseFile_layout "INFO".toList 1 1 1 1 0 0 tinyOracle 1 tinyOut (by decide)
    ⟨1000, [10000000], 0, 0, [], [10000000], [['0'], "10000000".toList]⟩ (by decide)

theorem summary_line_amended_witness :
    tinyOut.summaryFile = summaryHeader ::
      (tinyOut.studentIds.zip tinyOut.summaryCodes).map
        (fun p => natToDec p.1 ++ [','] ++ List.intercalate [','] p.2) ∧
    tinyOut.summaryCodes.length = tinyOut.studentIds.length ∧
    (∀ cs ∈ tinyOut.summaryCodes, List.Sorted (· ≤ ·) cs) ∧
    ∀ p ∈ tinyOut.studentIds.zip tinyOut.summaryCodes, p.2 = ([] : List PyStr) →
      natToDec p.1 ++ [','] ++ List.intercalate [','] p.2 = natToDec p.1 ++ [','] :=
  @summary_line_amended "INFO".toList 1 1 1 1 0 0 tinyOracle 1 tinyOut (by decide)

theorem roundtrip_active_summary_witness :
    ∃ seg, readActiveSegment ([['0'], "10000000".toList] : List PyStr) = some seg ∧
      ((((10000000 : Nat) : Int) ∈ seg) ↔
        ("INFO".toList ++ natToDec 1000) ∈ [("INFO1000".toList : PyStr)]) :=
  @roundtrip_active_summary "INFO".toList 1 1 1 1 0 0 tinyOracle 1 tinyOut (by decide)
    ⟨1000, [10000000], 0, 0, [], [10000000], [['0'], "10000000".toList]⟩ (by decide)
    (10000000, ["INFO1000".toList]) (by decide)

theorem matrix_consistency_amended_witness :
    List.Sorted (· ≤ ·) (pySortInt (tinyOut.studentIds.map (fun n => Int.ofNat n))) ∧
    List.Sorted (· ≤ ·) tinyOut.courseNumbers ∧
    (pySortInt (tinyOut.studentIds.map (fun n => Int.ofNat n))).Perm
      (tinyOut.studentIds.map (fun n => Int.ofNat n)) ∧
    (∀ c ∈ tinyOut.courses, readActiveSegment c.fileLines =
      some ((pySortNat c.remaining).map (fun n => Int.ofNat n))) ∧
    generate_student_course_matrix_v4 "INFO".toList
        (some (outputDir "INFO".toList tinyOut)) =
      BuilderResult.success
        (matrixHeader "INFO".toList
            (tinyOut.courseNumbers.map (fun n => Int.ofNat n)) ::
          (pySortInt (tinyOut.studentIds.map (fun n => Int.ofNat n))).map (fun sid =>
            List.intercalate [','] (intToDec sid ::
              tinyOut.courses.map (fun c =>
                if sid ∈ (pySortNat c.remaining).map (fun n => Int.ofNat n)
                then ['1'] else ['0'])))) :=
  @matrix_consistency_amended "INFO".toList 1 1 1 1 0 0 tinyOracle 1 tinyOut
    (by decide) (by decide)

theorem discovery_amended_witness :
    discoverCourseNumbers "INFO".toList ["INFO1000.txt".toList] =
      some (pySortInt ((["INFO1000.txt".toList].filter
          (courseFileNameTest "INFO".toList)).filterMap
        (fun n => pyParseInt (fileMiddle "INFO".toList n)))) ∧
    List.Sorted (· ≤ ·) (pySortInt ((["INFO1000.txt".toList].filter
        (courseFileNameTest "INFO".toList)).filterMap
      (fun n => pyParseInt (fileMiddle "INFO".toList n)))) ∧
    discoverCourseNumbers "INFO".toList ["INFO1000.txt".toList] =
      discoverCourseNumbers "INFO".toList (["INFO1000.txt".toList].filter
        (courseFileNameTest "INFO".toList)) :=
  discovery_amended "INFO".toList ["INFO1000.txt".toList] (by decide)

theorem scenario_amended_witness :
    scOut.courses.length = 5 ∧
    (∀ c ∈ scOut.courses,
      mkRat 1 20 ≤ c.rate ∧ c.rate ≤ mkRat 3 20 ∧
      (c.withdrawn.length : Int) = ⌊(c.enrolled.length : ℚ) * c.rate⌋) ∧
    scOut.summaryFile.length = 151 ∧
    scOut.summaryFile.head? = some summaryHeader ∧
    generate_student_course_matrix_v4 "INFO".toList
        (some (outputDir "INFO".toList scOut)) =
      BuilderResult.success
        (matrixHeader "INFO".toList
            (scOut.courseNumbers.map (fun n => Int.ofNat n)) ::
          (pySortInt (scOut.studentIds.map (fun n => Int.ofNat n))).map (fun sid =>
            List.intercalate [','] (intToDec sid ::
              scOut.courses.map (fun c =>
                if sid ∈ (pySortNat c.remaining).map (fun n => Int.ofNat n)
                then ['1'] else ['0'])))) ∧
    (pySortInt (scOut.studentIds.map (fun n => Int.ofNat n))).length = 150 ∧
    ∀ sid : Int,
      (scOut.courses.map (fun c =>
        if sid ∈ (pySortNat c.remaining).map (fun n => Int.ofNat n)
        then ['1'] else ['0'])).length = 5 ∧
      ∀ cell ∈ scOut.courses.map (fun c =>
          if sid ∈ (pySortNat c.remaining).map (fun n => Int.ofNat n)
          then ['1'] else ['0']),
        cell = ['1'] ∨ cell = ['0'] :=
  @scenario_amended scOracle 150 scOut scRun_eq
